import Mathlib

/-!
Verification of the worktree + status-tracking core of the
`openorchestrator` repository, shallowly embedded in Lean 4.

Embedding conventions:
- Python strings are Lean `String`s; character-level work is done on
  `List Char`.  Python's `\w`, `\s`, `str.strip()` are modelled for the
  ASCII range (the repository only ever feeds ASCII branch names, git
  porcelain output and shell commands through these functions).
- `datetime.now()` is an external input: every mutating operation takes an
  explicit `now : Nat` timestamp argument.
- Python `dict` (insertion ordered) is modelled as an association list
  `List (String × _)` with insertion-order preserving update.
- `pathlib.Path` values are carried as plain strings; `Path.name` is the
  last nonempty `/`-separated component.
- Fallible operations return `Except`/`Option`; external subprocess calls
  (git) are modelled by environment records carrying their observable
  results, plus an explicit log of the mutating git commands issued.
-/

namespace PyStr

/-- Characters considered whitespace by Python's `str.strip()` and `\s`
(ASCII range). -/
def pyIsSpace (c : Char) : Bool :=
  c = ' ' || c = '\t' || c = '\n' || c = '\r' || c = '\x0b' || c = '\x0c'

/-- Python `str.strip()` on the ASCII whitespace set. -/
def pyStrip (s : String) : String :=
  String.mk (((s.toList.dropWhile pyIsSpace).reverse.dropWhile pyIsSpace).reverse)

/-- Python's regex `\w` character class, modelled on the ASCII range:
letters, digits and underscore. -/
def pyIsWord (c : Char) : Bool :=
  c.isAlphanum || c = '_'

/-- Python `s.split(sep)` for a single-character separator (note: unlike
Lean's `String.splitOn`, this is defined purely on character lists so
that proofs can evaluate it). -/
def splitOnChar (sep : Char) (l : List Char) : List (List Char) :=
  l.foldr
    (fun c acc =>
      if c = sep then [] :: acc
      else
        match acc with
        | [] => [[c]]
        | g :: gs => (c :: g) :: gs)
    [[]]

/-- Python `str.startswith`. -/
def pyStartsWith (s pre : String) : Bool :=
  pre.toList.isPrefixOf s.toList

/-- Python `str.endswith`. -/
def pyEndsWith (s post : String) : Bool :=
  post.toList.isSuffixOf s.toList

/-- Python `s[n:]`. -/
def pyDrop (s : String) (n : Nat) : String :=
  String.mk (s.toList.drop n)

/-- Python `s[:n]`. -/
def pyTake (s : String) (n : Nat) : String :=
  String.mk (s.toList.take n)

/-- Python `output.split("\n")`. -/
def pyLines (s : String) : List String :=
  (splitOnChar '\n' s.toList).map String.mk

/-- Last nonempty `/`-separated component of a path string; models
`pathlib.Path(p).name` for the ordinary absolute paths the code handles. -/
def pathBaseName (p : String) : String :=
  ((((splitOnChar '/' p.toList).map String.mk).filter (fun s => s ≠ "")).getLast?).getD ""

/-- Parent directory string of a path; models `pathlib.Path(p).parent` for
ordinary absolute paths: everything before the last `/`-separated
component. -/
def pathParent (p : String) : String :=
  let comps := ((splitOnChar '/' p.toList).map String.mk).filter (fun s => s ≠ "")
  match comps with
  | [] => p
  | _ => "/" ++ String.intercalate "/" (comps.dropLast)

/-- Does `needle` occur as a contiguous substring of `hay`? -/
def listHasSub (needle : List Char) : List Char → Bool
  | [] => needle.isEmpty
  | c :: cs => needle.isPrefixOf (c :: cs) || listHasSub needle cs

/-- String-level substring test built on `listHasSub`. -/
def strHasSub (needle hay : String) : Bool :=
  listHasSub needle.toList hay.toList

end PyStr

namespace ClaudeOrch

open PyStr

/-- Source: `claude_orchestrator/core/worktree.py`,
`WorktreeManager._sanitize_branch_name`:
`sanitized = branch.replace("/", "-")` followed by
`re.sub(r"[^\w\-]", "", sanitized)`. -/
def sanitize_branch_name (branch : String) : String :=
  let replaced := branch.toList.map (fun c => if c = '/' then '-' else c)
  String.mk (replaced.filter (fun c => pyIsWord c || c = '-'))

/-- Source: `WorktreeManager._generate_worktree_path`: pattern
`{project}-{branch-name}` in the parent directory of the git root. -/
def generate_worktree_path (git_root : String) (branch : String) : String :=
  let project_name := pathBaseName git_root
  let worktree_name := project_name ++ "-" ++ sanitize_branch_name branch
  pathParent git_root ++ "/" ++ worktree_name

/-- Source: `claude_orchestrator/models/worktree_info.py`, `WorktreeInfo`
(the module is re-exported; the identical model ships as
`open_orchestrator/models/worktree_info.py`).  `path` is carried as a
string; `created_at` is irrelevant to the verified operations and omitted. -/
structure WorktreeInfo where
  path : String
  branch : String
  head_commit : String
  is_main : Bool
  is_detached : Bool
deriving DecidableEq, Repr

/-- Source: `WorktreeInfo.name` property — the worktree directory name,
`self.path.name`. -/
def WorktreeInfo.name (wt : WorktreeInfo) : String :=
  PyStr.pathBaseName wt.path

/-- Error taxonomy of `claude_orchestrator/core/worktree.py` (kind, not
Python class name): `WorktreeNotFoundError`, `WorktreeAlreadyExistsError`
and the base `WorktreeError` raised for operation failures. -/
inductive WorktreeError where
  | notFound (msg : String)
  | alreadyExists (msg : String)
  | operationFailed (msg : String)
deriving DecidableEq, Repr

/-- Mutating git subprocess invocations issued by the worktree manager. -/
inductive GitCmd where
  | worktreeAdd (path branch : String)
  | worktreeAddNewBranch (branch path base : String)
  | worktreeRemove (force : Bool) (path : String)
deriving DecidableEq, Repr

/-- Source: `WorktreeManager._find_worktree` — iterate the worktree list
and return the first worktree for which any of the four checks (exact
name, exact branch, exact path as string, branch suffix `.../identifier`)
succeeds. -/
def find_worktree (worktrees : List WorktreeInfo) (identifier : String) :
    Option WorktreeInfo :=
  match worktrees with
  | [] => none
  | wt :: rest =>
    if wt.name = identifier then some wt
    else if wt.branch = identifier then some wt
    else if wt.path = identifier then some wt
    else if PyStr.pyEndsWith wt.branch ("/" ++ identifier) then some wt
    else find_worktree rest identifier

/-- Source: `WorktreeManager.get` — `_find_worktree`, raising
`WorktreeNotFoundError` when nothing matches. -/
def get (worktrees : List WorktreeInfo) (identifier : String) :
    Except WorktreeError WorktreeInfo :=
  match find_worktree worktrees identifier with
  | some wt => .ok wt
  | none => .error (.notFound ("Worktree not found: " ++ identifier))

/-- The four identifier checks of `_find_worktree`, as one predicate. -/
def matchesIdentifier (wt : WorktreeInfo) (identifier : String) : Bool :=
  wt.name = identifier || wt.branch = identifier || wt.path = identifier ||
    PyStr.pyEndsWith wt.branch ("/" ++ identifier)

/-- Fields accumulated from one porcelain block, mirroring the
`current_wt` dict of `WorktreeManager.list_all`. -/
structure RawEntry where
  path : Option String
  head : Option String
  branch : Option String
  detached : Bool
  bare : Bool
deriving DecidableEq, Repr

def emptyEntry : RawEntry := ⟨none, none, none, false, false⟩

/-- One non-blank (already stripped) porcelain line updating the
accumulated entry, mirroring the `elif` chain of `list_all`.  An
unrecognized line leaves the entry unchanged. -/
def applyLine (cur : RawEntry) (l : String) : RawEntry :=
  if PyStr.pyStartsWith l "worktree " then { cur with path := some (PyStr.pyDrop l 9) }
  else if PyStr.pyStartsWith l "HEAD " then { cur with head := some (PyStr.pyDrop l 5) }
  else if PyStr.pyStartsWith l "branch " then { cur with branch := some (PyStr.pyDrop l 7) }
  else if l = "detached" then { cur with detached := true }
  else if l = "bare" then { cur with bare := true }
  else cur

/-- Source: `WorktreeManager._parse_worktree_entry`.  `is_main` compares
the entry path with the git root (Python compares `Path` values; paths
are carried here as the strings git printed). -/
def parse_worktree_entry (git_root : String) (entry : RawEntry) :
    WorktreeInfo :=
  let path := entry.path.getD ""
  let branch_ref := entry.branch.getD ""
  let branch :=
    if PyStr.pyStartsWith branch_ref "refs/heads/" then PyStr.pyDrop branch_ref 11
    else if branch_ref = "" then "(detached)" else branch_ref
  { path := path
    branch := branch
    head_commit := PyStr.pyTake (entry.head.getD "") 7
    is_main := path = git_root
    is_detached := entry.detached }

/-- The line loop of `list_all`: strip each line; a blank line flushes the
accumulated entry (if nonempty); after the loop a final flush happens. -/
def processLines (git_root : String) : List String → RawEntry → List WorktreeInfo
  | [], cur =>
    if cur = emptyEntry then [] else [parse_worktree_entry git_root cur]
  | line :: rest, cur =>
    let l := PyStr.pyStrip line
    if l = "" then
      if cur = emptyEntry then processLines git_root rest emptyEntry
      else parse_worktree_entry git_root cur :: processLines git_root rest emptyEntry
    else processLines git_root rest (applyLine cur l)

/-- Source: `WorktreeManager.list_all`.  The git invocation
`worktree list --porcelain` is an external effect, passed in as its
observable outcome: `.error` models `GitCommandError` (caught: the method
returns the empty list), `.ok output` is the porcelain text, split on
newline exactly as Python's `split("\n")`. -/
def list_all (git_root : String) (gitResult : Except String String) :
    List WorktreeInfo :=
  match gitResult with
  | .error _ => []
  | .ok output => processLines git_root (PyStr.pyLines output) emptyEntry

/-- Maximal runs of non-blank lines in an (already stripped) line list:
the blocks of the porcelain output, blank-line separated. -/
def blocksOf : List String → List (List String)
  | [] => []
  | l :: rest =>
    if l = "" then blocksOf rest
    else (l :: rest.takeWhile (fun s => s ≠ "")) ::
      blocksOf (rest.dropWhile (fun s => s ≠ ""))
termination_by ls => ls.length
decreasing_by
  · simp only [List.length_cons]; omega
  · simp only [List.length_cons]
    exact Nat.lt_succ_of_le (List.IsSuffix.length_le (List.dropWhile_suffix _))

/-- The record a single porcelain block yields: fold its lines into a
`RawEntry`; an entry that never saw a recognized line is skipped. -/
def parseBlock (git_root : String) (block : List String) :
    Option WorktreeInfo :=
  let e := block.foldl applyLine emptyEntry
  if e = emptyEntry then none else some (parse_worktree_entry git_root e)

/-- `processLines` restated on pre-stripped lines (the loop strips each
line before testing it; this variant consumes the stripped list). -/
def procStripped (git_root : String) : List String → RawEntry → List WorktreeInfo
  | [], cur =>
    if cur = emptyEntry then [] else [parse_worktree_entry git_root cur]
  | l :: rest, cur =>
    if l = "" then
      if cur = emptyEntry then procStripped git_root rest emptyEntry
      else parse_worktree_entry git_root cur :: procStripped git_root rest emptyEntry
    else procStripped git_root rest (applyLine cur l)

/-- Is this result the already-exists error kind? -/
def isAlreadyExistsErr {α : Type} : Except WorktreeError α → Bool
  | .error (.alreadyExists _) => true
  | _ => false

/-- Observable outcome of the external git calls that `create` makes,
together with the pre-existing filesystem/worktree state it consults. -/
structure CreateEnv where
  worktrees : List WorktreeInfo
  dirExists : String → Bool
  branchExists : String → Bool
  activeBranch : String
  addSucceeds : Bool
  addStderr : String
  worktreesAfterAdd : List WorktreeInfo

/-- Source: `WorktreeManager.create`.  Checks, in source order: target
directory existence, an existing worktree for `branch` (unless `force`),
then issues exactly one `git worktree add` command (plain checkout when
the branch exists, `-b` from the base branch otherwise) and re-queries.
The second component is the list of mutating git commands issued. -/
def create (git_root : String) (env : CreateEnv) (branch : String)
    (base_branch : Option String) (path : Option String) (force : Bool) :
    Except WorktreeError WorktreeInfo × List GitCmd :=
  let worktree_path := path.getD (generate_worktree_path git_root branch)
  if env.dirExists worktree_path then
    (.error (.alreadyExists ("Directory already exists: " ++ worktree_path)), [])
  else
    match find_worktree env.worktrees branch, force with
    | some existing, false =>
      (.error (.alreadyExists ("Worktree for branch '" ++ branch ++
        "' already exists at: " ++ existing.path)), [])
    | _, _ =>
      let cmd :=
        if env.branchExists branch then GitCmd.worktreeAdd worktree_path branch
        else GitCmd.worktreeAddNewBranch branch worktree_path
          (base_branch.getD env.activeBranch)
      if env.addSucceeds then
        match find_worktree env.worktreesAfterAdd branch with
        | some wt => (.ok wt, [cmd])
        | none =>
          (.error (.operationFailed ("Worktree created but not found. Path: " ++
            worktree_path)), [cmd])
      else
        (.error (.operationFailed ("Failed to create worktree: " ++
          env.addStderr)), [cmd])

/-- Observable outcome of the external git call that `delete` makes. -/
structure DeleteEnv where
  worktrees : List WorktreeInfo
  removeSucceeds : Bool
  removeStderr : String

/-- Source: `WorktreeManager.delete`: resolve via `_find_worktree`;
refuse the main worktree; otherwise issue `git worktree remove`
(`--force` passed through) and return the removed path.  The second
component is the list of mutating git commands issued. -/
def delete (env : DeleteEnv) (identifier : String) (force : Bool) :
    Except WorktreeError String × List GitCmd :=
  match find_worktree env.worktrees identifier with
  | none => (.error (.notFound ("Worktree not found: " ++ identifier)), [])
  | some wt =>
    if wt.is_main then
      (.error (.operationFailed "Cannot delete the main worktree"), [])
    else
      let cmd := GitCmd.worktreeRemove force wt.path
      if env.removeSucceeds then (.ok wt.path, [cmd])
      else
        (.error (.operationFailed ("Failed to delete worktree: " ++
          env.removeStderr)), [cmd])

end ClaudeOrch

namespace OpenOrch

/-- Source: `open_orchestrator/models/status.py`, `AIActivityStatus`. -/
inductive AIActivityStatus where
  | idle | working | blocked | waiting | completed | error | unknown
deriving DecidableEq, Repr

/-- Serialized string value of an activity status (the `str` enum value
used by pydantic's `use_enum_values`). -/
def AIActivityStatus.toStr : AIActivityStatus → String
  | .idle => "idle"
  | .working => "working"
  | .blocked => "blocked"
  | .waiting => "waiting"
  | .completed => "completed"
  | .error => "error"
  | .unknown => "unknown"

/-- Inverse of `AIActivityStatus.toStr`: enum validation on load; an
unrecognized value fails validation. -/
def AIActivityStatus.ofStr : String → Option AIActivityStatus
  | "idle" => some .idle
  | "working" => some .working
  | "blocked" => some .blocked
  | "waiting" => some .waiting
  | "completed" => some .completed
  | "error" => some .error
  | "unknown" => some .unknown
  | _ => none

/-- Source: `open_orchestrator/models/status.py`, `CommandRecord`.
Timestamps are abstract `Nat`s (`datetime.now()` is an external input). -/
structure CommandRecord where
  timestamp : Nat
  command : String
  source_worktree : Option String
  pane_index : Int
  window_index : Int
deriving DecidableEq, Repr

/-- Source: `open_orchestrator/models/status.py`, `WorktreeAIStatus`. -/
structure WorktreeAIStatus where
  worktree_name : String
  worktree_path : String
  branch : String
  tmux_session : Option String
  ai_tool : String
  activity_status : AIActivityStatus
  current_task : Option String
  last_task_update : Option Nat
  recent_commands : List CommandRecord
  notes : Option String
  created_at : Nat
  updated_at : Nat
deriving DecidableEq, Repr

/-- Python's `lst[-max:]` slice as used by `add_command`'s truncation:
for `max = 0` the slice `[-0:]` is `[0:]`, the whole list; otherwise the
last `max` elements. -/
def pyTailSlice (maxHistory : Nat) (l : List CommandRecord) : List CommandRecord :=
  if maxHistory = 0 then l else l.drop (l.length - maxHistory)

/-- Source: `WorktreeAIStatus.add_command`: append a fresh record, refresh
`updated_at`, and when the list exceeds `max_history` keep only the slice
`[-max_history:]`. -/
def WorktreeAIStatus.add_command (st : WorktreeAIStatus) (now : Nat)
    (command : String) (source_worktree : Option String)
    (pane_index window_index : Int) (max_history : Nat) : WorktreeAIStatus :=
  let record : CommandRecord :=
    ⟨now, command, source_worktree, pane_index, window_index⟩
  let cmds := st.recent_commands ++ [record]
  let cmds := if max_history < cmds.length then pyTailSlice max_history cmds else cmds
  { st with recent_commands := cmds, updated_at := now }

/-- Source: `WorktreeAIStatus.update_task`. -/
def WorktreeAIStatus.update_task (st : WorktreeAIStatus) (now : Nat)
    (task : String) (status : AIActivityStatus) : WorktreeAIStatus :=
  { st with current_task := some task, activity_status := status,
            last_task_update := some now, updated_at := now }

/-- Source: `WorktreeAIStatus.mark_completed`. -/
def WorktreeAIStatus.mark_completed (st : WorktreeAIStatus) (now : Nat) :
    WorktreeAIStatus :=
  { st with activity_status := .completed, updated_at := now }

/-- Source: `WorktreeAIStatus.mark_idle`: status `idle`, task cleared,
`updated_at` refreshed. -/
def WorktreeAIStatus.mark_idle (st : WorktreeAIStatus) (now : Nat) :
    WorktreeAIStatus :=
  { st with activity_status := .idle, current_task := none, updated_at := now }

/-- Insertion-order preserving key update, the behavior of Python's
`dict.__setitem__`: overwrite in place when the key exists, append
otherwise. -/
def setPair (l : List (String × WorktreeAIStatus)) (k : String)
    (v : WorktreeAIStatus) : List (String × WorktreeAIStatus) :=
  match l with
  | [] => [(k, v)]
  | (k0, v0) :: rest =>
    if k0 = k then (k0, v) :: rest else (k0, v0) :: setPair rest k v

/-- Deletion of a key from the insertion-ordered map, the behavior of
Python's `del d[k]` (keys are unique, so removing the first occurrence). -/
def removePair (l : List (String × WorktreeAIStatus)) (k : String) :
    List (String × WorktreeAIStatus) :=
  match l with
  | [] => []
  | (k0, v0) :: rest =>
    if k0 = k then rest else (k0, v0) :: removePair rest k

/-- Source: `open_orchestrator/models/status.py`, `StatusStore`: version
tag, last-update timestamp and the insertion-ordered name → status map. -/
structure StatusStore where
  version : String
  updated_at : Nat
  statuses : List (String × WorktreeAIStatus)
deriving DecidableEq, Repr

/-- Fresh store, as built by `StatusStore()` with field defaults. -/
def StatusStore.mkEmpty (now : Nat) : StatusStore :=
  { version := "1.1", updated_at := now, statuses := [] }

/-- Source: `StatusStore.get_status` — `self.statuses.get(name)`. -/
def StatusStore.get_status (s : StatusStore) (worktree_name : String) :
    Option WorktreeAIStatus :=
  (s.statuses.find? (fun p => p.1 = worktree_name)).map (fun p => p.2)

/-- Source: `StatusStore.set_status` — keyed by the status's own
`worktree_name`; refreshes the store's `updated_at`. -/
def StatusStore.set_status (s : StatusStore) (now : Nat)
    (status : WorktreeAIStatus) : StatusStore :=
  { s with statuses := setPair s.statuses status.worktree_name status,
           updated_at := now }

/-- Source: `StatusStore.remove_status` — returns the updated store and
whether the key was present. -/
def StatusStore.remove_status (s : StatusStore) (now : Nat)
    (worktree_name : String) : StatusStore × Bool :=
  if s.statuses.any (fun p => p.1 = worktree_name) then
    ({ s with statuses := removePair s.statuses worktree_name,
              updated_at := now }, true)
  else (s, false)

/-- Source: `StatusStore.get_all_statuses` — `list(self.statuses.values())`. -/
def StatusStore.get_all_statuses (s : StatusStore) : List WorktreeAIStatus :=
  s.statuses.map (fun p => p.2)

/-! Redaction engine: `StatusTracker._sanitize_command` applies ten
`re.sub` substitutions in order.  Each pattern is embedded as a scanner
`List Char → Option (replacement, rest)` that attempts a match at the head
of its input, faithful to the greedy matching of the Python pattern (the
optional-quote patterns are the only place the regexes could backtrack,
and there backtracking cannot turn failure into success because the
character classes exclude the quotes); `pySub` then reproduces `re.sub`'s
left-to-right scan-and-replace. -/

/-- Match a literal character sequence; returns (consumed, rest). -/
def matchLit : List Char → List Char → Option (List Char × List Char)
  | [], cs => some ([], cs)
  | _ :: _, [] => none
  | p :: ps, c :: cs =>
    if c = p then (matchLit ps cs).map (fun pr => (c :: pr.1, pr.2)) else none

/-- Case-insensitive literal match (the `(?i)` patterns); the consumed
text keeps the original characters, as regex group capture does. -/
def matchLitCI : List Char → List Char → Option (List Char × List Char)
  | [], cs => some ([], cs)
  | _ :: _, [] => none
  | p :: ps, c :: cs =>
    if c.toLower = p.toLower then
      (matchLitCI ps cs).map (fun pr => (c :: pr.1, pr.2))
    else none

/-- Greedy `p*`: the maximal satisfying span and the rest. -/
def matchStar (p : Char → Bool) : List Char → List Char × List Char
  | [] => ([], [])
  | c :: cs =>
    if p c then
      let pr := matchStar p cs
      (c :: pr.1, pr.2)
    else ([], c :: cs)

/-- Greedy `p+`: fails on an empty span. -/
def matchPlus (p : Char → Bool) (cs : List Char) :
    Option (List Char × List Char) :=
  match cs with
  | [] => none
  | c :: rest =>
    if p c then
      let pr := matchStar p rest
      some (c :: pr.1, pr.2)
    else none

/-- A single character from a class. -/
def matchOne (p : Char → Bool) (cs : List Char) :
    Option (List Char × List Char) :=
  match cs with
  | [] => none
  | c :: rest => if p c then some ([c], rest) else none

/-- Greedy `p?` on a single character. -/
def matchOptChar (p : Char → Bool) (cs : List Char) :
    List Char × List Char :=
  match cs with
  | [] => ([], [])
  | c :: rest => if p c then ([c], rest) else ([], c :: rest)

/-- Exactly `n` characters from a class (`p{n}`). -/
def matchExactly (p : Char → Bool) : Nat → List Char →
    Option (List Char × List Char)
  | 0, cs => some ([], cs)
  | _ + 1, [] => none
  | n + 1, c :: cs =>
    if p c then (matchExactly p n cs).map (fun pr => (c :: pr.1, pr.2))
    else none

def redactedMark : List Char := "[REDACTED]".toList

def isQuoteChar (c : Char) : Bool := c = '"' || c = '\x27'

/-- The `[^"\x27\s]` value class of the assignment patterns. -/
def isValueChar (c : Char) : Bool := !(isQuoteChar c) && !(PyStr.pyIsSpace c)

/-- The value part `["\x27]?([^"\x27\s]+)["\x27]?` of the assignment
patterns; returns the rest after the whole (quotes included).  When a
leading quote is followed by no value character, Python's backtracking
into the optional quote also fails (the value class excludes quotes), so
plain failure is faithful. -/
def matchQuotedValue (cs : List Char) : Option (List Char) :=
  match cs with
  | [] => none
  | c :: rest =>
    if isQuoteChar c then
      match matchPlus isValueChar rest with
      | some (_, r2) => some (matchOptChar isQuoteChar r2).2
      | none => none
    else
      match matchPlus isValueChar (c :: rest) with
      | some (_, r2) => some (matchOptChar isQuoteChar r2).2
      | none => none

/-- Common shape of the `key\s*[:=]\s*` assignment patterns, replaced by
`\1[REDACTED]` where group 1 runs through the separator and its spaces. -/
def matchAssign (matchKey : List Char → Option (List Char × List Char))
    (cs : List Char) : Option (List Char × List Char) := do
  let (k, r) ← matchKey cs
  let (s1, r) := matchStar PyStr.pyIsSpace r
  let (sep, r) ← matchOne (fun c => c = ':' || c = '=') r
  let (s2, r) := matchStar PyStr.pyIsSpace r
  let r ← matchQuotedValue r
  pure (k ++ s1 ++ sep ++ s2 ++ redactedMark, r)

/-- Pattern 1: `(Authorization\s*:\s*Bearer\s+)[^\s]+` → `\1[REDACTED]`. -/
def matchBearer (cs : List Char) : Option (List Char × List Char) := do
  let (a, r) ← matchLit "Authorization".toList cs
  let (s1, r) := matchStar PyStr.pyIsSpace r
  let (col, r) ← matchOne (fun c => c = ':') r
  let (s2, r) := matchStar PyStr.pyIsSpace r
  let (b, r) ← matchLit "Bearer".toList r
  let (s3, r) ← matchPlus PyStr.pyIsSpace r
  let (_, r) ← matchPlus (fun c => !PyStr.pyIsSpace c) r
  pure (a ++ s1 ++ col ++ s2 ++ b ++ s3 ++ redactedMark, r)

/-- Pattern 2: `(?i)(password\s*[:=]\s*)["\x27]?([^"\x27\s]+)["\x27]?`. -/
def matchPassword : List Char → Option (List Char × List Char) :=
  matchAssign (matchLitCI "password".toList)

/-- Pattern 3 key: `(?i)api[_-]?key`. -/
def matchApiKeyWord (cs : List Char) : Option (List Char × List Char) := do
  let (a, r) ← matchLitCI "api".toList cs
  let (m, r) := matchOptChar (fun c => c = '_' || c = '-') r
  let (k, r) ← matchLitCI "key".toList r
  pure (a ++ m ++ k, r)

/-- Pattern 3: `(?i)(api[_-]?key\s*[:=]\s*)...`. -/
def matchApiKey : List Char → Option (List Char × List Char) :=
  matchAssign matchApiKeyWord

/-- Pattern 4: `(?i)(token\s*[:=]\s*)...`. -/
def matchTokenAssign : List Char → Option (List Char × List Char) :=
  matchAssign (matchLitCI "token".toList)

/-- Pattern 5: `(?i)(secret\s*[:=]\s*)...`. -/
def matchSecretAssign : List Char → Option (List Char × List Char) :=
  matchAssign (matchLitCI "secret".toList)

/-- Pattern 6: `(https?://)[^/:@\s]+:[^/:@\s]+@` →
`\1[REDACTED]:[REDACTED]@`. -/
def matchUrlCred (cs : List Char) : Option (List Char × List Char) := do
  let credChar := fun c => !(c = '/' || c = ':' || c = '@' || PyStr.pyIsSpace c)
  let (h, r) ← matchLit "http".toList cs
  let (s, r) := matchOptChar (fun c => c = 's') r
  let (sl, r) ← matchLit "://".toList r
  let (_, r) ← matchPlus credChar r
  let (_, r) ← matchOne (fun c => c = ':') r
  let (_, r) ← matchPlus credChar r
  let (_, r) ← matchOne (fun c => c = '@') r
  pure (h ++ s ++ sl ++ "[REDACTED]:[REDACTED]@".toList, r)

/-- The `[A-Za-z0-9_-]` class of the JWT pattern. -/
def isB64UrlChar (c : Char) : Bool := c.isAlphanum || c = '_' || c = '-'

/-- Pattern 7: `eyJ[A-Za-z0-9_-]+\.eyJ[A-Za-z0-9_-]+\.[A-Za-z0-9_-]+` →
`[JWT REDACTED]`. -/
def matchJwt (cs : List Char) : Option (List Char × List Char) := do
  let (_, r) ← matchLit "eyJ".toList cs
  let (_, r) ← matchPlus isB64UrlChar r
  let (_, r) ← matchOne (fun c => c = '.') r
  let (_, r) ← matchLit "eyJ".toList r
  let (_, r) ← matchPlus isB64UrlChar r
  let (_, r) ← matchOne (fun c => c = '.') r
  let (_, r) ← matchPlus isB64UrlChar r
  pure ("[JWT REDACTED]".toList, r)

/-- Pattern 8: `AKIA[0-9A-Z]{16}` → `AKIA[REDACTED]`. -/
def matchAkia (cs : List Char) : Option (List Char × List Char) := do
  let (_, r) ← matchLit "AKIA".toList cs
  let (_, r) ← matchExactly (fun c => c.isDigit || c.isUpper) 16 r
  pure ("AKIA[REDACTED]".toList, r)

/-- The `[A-Za-z0-9/+=]` class of the AWS secret pattern. -/
def isAwsSecretChar (c : Char) : Bool :=
  c.isAlphanum || c = '/' || c = '+' || c = '='

/-- Pattern 9: `(?i)(aws_secret_access_key\s*[:=]\s*)[A-Za-z0-9/+=]{40}` →
`\1[REDACTED]`. -/
def matchAwsSecret (cs : List Char) : Option (List Char × List Char) := do
  let (k, r) ← matchLitCI "aws_secret_access_key".toList cs
  let (s1, r) := matchStar PyStr.pyIsSpace r
  let (sep, r) ← matchOne (fun c => c = ':' || c = '=') r
  let (s2, r) := matchStar PyStr.pyIsSpace r
  let (_, r) ← matchExactly isAwsSecretChar 40 r
  pure (k ++ s1 ++ sep ++ s2 ++ redactedMark, r)

/-- The `(?:RSA |EC )?` tag of the PEM pattern; ordered attempts without
backtracking are faithful because neither tag is a prefix of
`PRIVATE KEY-----`. -/
def matchKeyTypeTag (cs : List Char) : List Char × List Char :=
  match matchLit "RSA ".toList cs with
  | some pr => pr
  | none =>
    match matchLit "EC ".toList cs with
    | some pr => pr
    | none => ([], cs)

/-- The END marker of the PEM pattern. -/
def matchPemEnd (cs : List Char) : Option (List Char × List Char) := do
  let (a, r) ← matchLit "-----END ".toList cs
  let (t, r) := matchKeyTypeTag r
  let (b, r) ← matchLit "PRIVATE KEY-----".toList r
  pure (a ++ t ++ b, r)

/-- The lazy `[\s\S]*?` middle: consume up to the earliest END marker
occurrence and through it; fail when none occurs. -/
def scanToPemEnd : List Char → Option (List Char)
  | [] => none
  | c :: cs =>
    match matchPemEnd (c :: cs) with
    | some (_, r) => some r
    | none => scanToPemEnd cs

/-- Pattern 10: the PEM private-key block → `[PRIVATE KEY REDACTED]`. -/
def matchPem (cs : List Char) : Option (List Char × List Char) := do
  let (_, r) ← matchLit "-----BEGIN ".toList cs
  let (t, r) := matchKeyTypeTag r
  let (_, r) ← matchLit "PRIVATE KEY-----".toList r
  let _ := t
  let r ← scanToPemEnd r
  pure ("[PRIVATE KEY REDACTED]".toList, r)

/-- The left-to-right scan of `re.sub`: at each position attempt the
pattern; on a match emit the replacement and continue after the consumed
text (every embedded pattern consumes at least one character, so the
fuel `length + 1` supplied by `pySub` never runs out). -/
def scanSubAux (m : List Char → Option (List Char × List Char)) :
    Nat → List Char → List Char
  | 0, cs => cs
  | _ + 1, [] => []
  | fuel + 1, c :: cs =>
    match m (c :: cs) with
    | some (repl, rest) => repl ++ scanSubAux m fuel rest
    | none => c :: scanSubAux m fuel cs

/-- One full `re.sub(pattern, repl, text)` pass. -/
def pySub (m : List Char → Option (List Char × List Char))
    (cs : List Char) : List Char :=
  scanSubAux m (cs.length + 1) cs

/-- Source: `StatusTracker._sanitize_command` — the ten substitutions
applied in source order. -/
def sanitize_command (text : String) : String :=
  let passes : List (List Char → Option (List Char × List Char)) :=
    [matchBearer, matchPassword, matchApiKey, matchTokenAssign,
     matchSecretAssign, matchUrlCred, matchJwt, matchAkia, matchAwsSecret,
     matchPem]
  String.mk (passes.foldl (fun cs m => pySub m cs) text.toList)

/-! Persistence: `_save_store` serializes the store with
`json.dumps(model_dump(mode="json"))` and `_load_store` parses and
validates it, falling back to a fresh store on any failure.  The byte
layer (`json.dumps`/`json.loads`) is Python's stdlib and round-trips a
JSON tree exactly, so the disk content is modelled as the JSON tree
itself.  Validation (`model_validate`) is modelled on the JSON shapes the
tracker itself writes: required fields are required, optional fields take
their declared defaults when absent, and the timestamp fields (whose
pydantic default is the validation-time clock, an external input the
tracker never relies on because it always writes them) are required. -/

inductive Json where
  | null
  | int (i : Int)
  | str (s : String)
  | arr (xs : List Json)
  | obj (fields : List (String × Json))

def Json.getField : Json → String → Option Json
  | .obj fields, name => (fields.find? (fun p => p.1 = name)).map (fun p => p.2)
  | _, _ => none

def Json.asInt : Json → Option Int
  | .int i => some i
  | _ => none

def Json.asNat : Json → Option Nat
  | .int i => if i < 0 then none else some i.toNat
  | _ => none

def Json.asStr : Json → Option String
  | .str s => some s
  | _ => none

/-- A nullable string field with default `None`. -/
def Json.getOptStrField (j : Json) (name : String) : Option (Option String) :=
  match j.getField name with
  | none => some none
  | some .null => some none
  | some (.str s) => some (some s)
  | some _ => none

/-- A nullable timestamp field with default `None`. -/
def Json.getOptNatField (j : Json) (name : String) : Option (Option Nat) :=
  match j.getField name with
  | none => some none
  | some .null => some none
  | some (.int i) => if i < 0 then none else some (some i.toNat)
  | some _ => none

def encodeOptStr : Option String → Json
  | none => .null
  | some s => .str s

def encodeOptNat : Option Nat → Json
  | none => .null
  | some n => .int n

/-- Element-wise validation of a JSON array (pydantic validates each
element; any failure fails the whole validation). -/
def decodeList {α : Type} (f : Json → Option α) : List Json → Option (List α)
  | [] => some []
  | j :: rest => do
    let x ← f j
    let xs ← decodeList f rest
    pure (x :: xs)

/-- Element-wise validation of a JSON object's fields. -/
def decodePairs {α : Type} (f : Json → Option α) :
    List (String × Json) → Option (List (String × α))
  | [] => some []
  | (k, j) :: rest => do
    let v ← f j
    let vs ← decodePairs f rest
    pure ((k, v) :: vs)

/-- Serialization of a `CommandRecord` (`model_dump`, field order). -/
def encodeCommandRecord (c : CommandRecord) : Json :=
  .obj [("timestamp", .int c.timestamp),
        ("command", .str c.command),
        ("source_worktree", encodeOptStr c.source_worktree),
        ("pane_index", .int c.pane_index),
        ("window_index", .int c.window_index)]

/-- Validation of a `CommandRecord` (`model_validate`). -/
def decodeCommandRecord (j : Json) : Option CommandRecord := do
  let timestamp ← (j.getField "timestamp").bind Json.asNat
  let command ← (j.getField "command").bind Json.asStr
  let source_worktree ← j.getOptStrField "source_worktree"
  let pane_index ← match j.getField "pane_index" with
    | none => some 0
    | some v => v.asInt
  let window_index ← match j.getField "window_index" with
    | none => some 0
    | some v => v.asInt
  pure ⟨timestamp, command, source_worktree, pane_index, window_index⟩

/-- Serialization of a `WorktreeAIStatus`. -/
def encodeStatus (st : WorktreeAIStatus) : Json :=
  .obj [("worktree_name", .str st.worktree_name),
        ("worktree_path", .str st.worktree_path),
        ("branch", .str st.branch),
        ("tmux_session", encodeOptStr st.tmux_session),
        ("ai_tool", .str st.ai_tool),
        ("activity_status", .str st.activity_status.toStr),
        ("current_task", encodeOptStr st.current_task),
        ("last_task_update", encodeOptNat st.last_task_update),
        ("recent_commands", .arr (st.recent_commands.map encodeCommandRecord)),
        ("notes", encodeOptStr st.notes),
        ("created_at", .int st.created_at),
        ("updated_at", .int st.updated_at)]

/-- Validation of a `WorktreeAIStatus`. -/
def decodeStatus (j : Json) : Option WorktreeAIStatus := do
  let worktree_name ← (j.getField "worktree_name").bind Json.asStr
  let worktree_path ← (j.getField "worktree_path").bind Json.asStr
  let branch ← (j.getField "branch").bind Json.asStr
  let tmux_session ← j.getOptStrField "tmux_session"
  let ai_tool ← match j.getField "ai_tool" with
    | none => some "claude"
    | some v => v.asStr
  let activity_status ← match j.getField "activity_status" with
    | none => some .unknown
    | some (.str s) => AIActivityStatus.ofStr s
    | some _ => none
  let current_task ← j.getOptStrField "current_task"
  let last_task_update ← j.getOptNatField "last_task_update"
  let recent_commands ← match j.getField "recent_commands" with
    | none => some []
    | some (.arr xs) => decodeList decodeCommandRecord xs
    | some _ => none
  let notes ← j.getOptStrField "notes"
  let created_at ← (j.getField "created_at").bind Json.asNat
  let updated_at ← (j.getField "updated_at").bind Json.asNat
  pure ⟨worktree_name, worktree_path, branch, tmux_session, ai_tool,
        activity_status, current_task, last_task_update, recent_commands,
        notes, created_at, updated_at⟩

/-- Serialization of the whole `StatusStore`. -/
def encodeStore (s : StatusStore) : Json :=
  .obj [("version", .str s.version),
        ("updated_at", .int s.updated_at),
        ("statuses", .obj (s.statuses.map (fun p => (p.1, encodeStatus p.2))))]

/-- Validation of the whole `StatusStore`. -/
def decodeStore (j : Json) : Option StatusStore := do
  let version ← match j.getField "version" with
    | none => some "1.1"
    | some v => v.asStr
  let updated_at ← (j.getField "updated_at").bind Json.asNat
  let statuses ← match j.getField "statuses" with
    | none => some []
    | some (.obj fields) => decodePairs decodeStatus fields
    | some _ => none
  pure ⟨version, updated_at, statuses⟩

/-- Source: `StatusTracker.StatusConfig` (`storage_path` is the external
file location, not part of the logic; `__post_init__` rejects
`max_command_history < 1`, carried below as a hypothesis where relevant). -/
structure StatusConfig where
  max_command_history : Nat
  auto_cleanup_orphans : Bool
  store_commands : Bool
  redact_commands : Bool
deriving DecidableEq, Repr

/-- `StatusConfig()` defaults. -/
def StatusConfig.default : StatusConfig :=
  { max_command_history := 20, auto_cleanup_orphans := true,
    store_commands := true, redact_commands := true }

/-- In-memory tracker state: the store plus the persisted JSON document
(`none` models a missing status file). -/
structure TrackerState where
  store : StatusStore
  disk : Option Json

/-- Source: `StatusTracker._load_store` — parse and validate the file;
any failure (and a missing file) yields a fresh empty store. -/
def load_store (now : Nat) (disk : Option Json) : StatusStore :=
  match disk with
  | none => StatusStore.mkEmpty now
  | some j => (decodeStore j).getD (StatusStore.mkEmpty now)

/-- Source: `StatusTracker._save_store` — serialize the entire store to
the fixed location (atomically, permissions 0600; those effects live in
`utils/io.py` and are not part of the store logic). -/
def save_store (ts : TrackerState) : TrackerState :=
  { ts with disk := some (encodeStore ts.store) }

/-- Source: `StatusTracker.initialize_status` — insert a fresh `idle`
record (overwriting any existing entry for that name) and persist. -/
def initialize_status (ts : TrackerState) (now : Nat)
    (worktree_name worktree_path branch : String)
    (tmux_session : Option String) (ai_tool : String) :
    TrackerState × WorktreeAIStatus :=
  let status : WorktreeAIStatus :=
    { worktree_name := worktree_name, worktree_path := worktree_path,
      branch := branch, tmux_session := tmux_session, ai_tool := ai_tool,
      activity_status := .idle, current_task := none,
      last_task_update := none, recent_commands := [], notes := none,
      created_at := now, updated_at := now }
  let store := ts.store.set_status now status
  (save_store { ts with store := store }, status)

/-- Source: `StatusTracker.record_command` — no-op on an untracked
target; otherwise redact (when configured), append to the bounded
history (when configured), flip `idle` to `working`, persist. -/
def record_command (config : StatusConfig) (ts : TrackerState) (now : Nat)
    (target_worktree command : String) (source_worktree : Option String)
    (pane_index window_index : Int) :
    TrackerState × Option WorktreeAIStatus :=
  match ts.store.get_status target_worktree with
  | none => (ts, none)
  | some wt_status =>
    let command_to_store :=
      if config.redact_commands then sanitize_command command else command
    let wt_status :=
      if config.store_commands then
        wt_status.add_command now command_to_store source_worktree
          pane_index window_index config.max_command_history
      else wt_status
    let wt_status :=
      if wt_status.activity_status = .idle then
        { wt_status with activity_status := .working }
      else wt_status
    let store := ts.store.set_status now wt_status
    (save_store { ts with store := store }, some wt_status)

/-- Source: `StatusTracker.mark_completed`. -/
def tracker_mark_completed (ts : TrackerState) (now : Nat)
    (worktree_name : String) : TrackerState × Option WorktreeAIStatus :=
  match ts.store.get_status worktree_name with
  | none => (ts, none)
  | some wt_status =>
    let wt_status := wt_status.mark_completed now
    let store := ts.store.set_status now wt_status
    (save_store { ts with store := store }, some wt_status)

/-- Source: `StatusTracker.mark_idle`. -/
def tracker_mark_idle (ts : TrackerState) (now : Nat)
    (worktree_name : String) : TrackerState × Option WorktreeAIStatus :=
  match ts.store.get_status worktree_name with
  | none => (ts, none)
  | some wt_status =>
    let wt_status := wt_status.mark_idle now
    let store := ts.store.set_status now wt_status
    (save_store { ts with store := store }, some wt_status)

/-- Source: `StatusTracker.cleanup_orphans` — iterate the tracked names,
removing (and recording) each one absent from `valid_worktree_names`;
persist only when something was removed. -/
def cleanup_orphans (ts : TrackerState) (now : Nat)
    (valid_worktree_names : List String) : TrackerState × List String :=
  let current_names := ts.store.get_all_statuses.map (fun s => s.worktree_name)
  let step := fun (acc : StatusStore × List String) (name : String) =>
    if valid_worktree_names.contains name then acc
    else ((acc.1.remove_status now name).1, acc.2 ++ [name])
  let folded := current_names.foldl step (ts.store, [])
  let ts' := { ts with store := folded.1 }
  let ts' := if folded.2.isEmpty then ts' else save_store ts'
  (ts', folded.2)

/-- Arguments of one `record_command` invocation, for stating properties
of arbitrary call sequences. -/
structure RecordCall where
  now : Nat
  target : String
  command : String
  source : Option String
  pane_index : Int
  window_index : Int

/-- Apply one call to the tracker state, keeping the new state. -/
def applyRecord (config : StatusConfig) (ts : TrackerState)
    (c : RecordCall) : TrackerState :=
  (record_command config ts c.now c.target c.command c.source c.pane_index
    c.window_index).1

/-- Forget the entry-level `updated_at` timestamp (for statements of
equality "aside from `updatedAt`"). -/
def WorktreeAIStatus.eraseUpdated (st : WorktreeAIStatus) : WorktreeAIStatus :=
  { st with updated_at := 0 }

/-- Forget every `updated_at` timestamp in the store. -/
def StatusStore.eraseUpdated (s : StatusStore) : StatusStore :=
  { s with updated_at := 0,
           statuses := s.statuses.map (fun p => (p.1, p.2.eraseUpdated)) }

/-- Statuses that `get_summary` counts in the `unknown` bucket: everything
other than `working`, `idle` and `blocked`. -/
def inUnknownBucket (st : WorktreeAIStatus) : Bool :=
  match st.activity_status with
  | .working => false
  | .idle => false
  | .blocked => false
  | _ => true

/-- Source: `open_orchestrator/models/status.py`, `StatusSummary` (the
counter fields consumed by `get_summary`). -/
structure StatusSummary where
  timestamp : Nat
  total_worktrees : Nat
  worktrees_with_status : Nat
  active_ai_sessions : Nat
  idle_ai_sessions : Nat
  blocked_ai_sessions : Nat
  unknown_status : Nat
  total_commands_sent : Nat
  most_recent_activity : Option Nat
  statuses : List WorktreeAIStatus
deriving DecidableEq, Repr

/-- The per-status counter update inside `get_summary`'s loop
(`updated_at` is a non-nullable timestamp, so Python's
`if status.updated_at:` test is always true). -/
def summaryStep (summary : StatusSummary) (status : WorktreeAIStatus) :
    StatusSummary :=
  let summary :=
    match status.activity_status with
    | .working => { summary with
        active_ai_sessions := summary.active_ai_sessions + 1 }
    | .idle => { summary with
        idle_ai_sessions := summary.idle_ai_sessions + 1 }
    | .blocked => { summary with
        blocked_ai_sessions := summary.blocked_ai_sessions + 1 }
    | _ => { summary with unknown_status := summary.unknown_status + 1 }
  let summary := { summary with
    total_commands_sent :=
      summary.total_commands_sent + status.recent_commands.length }
  match summary.most_recent_activity with
  | none => { summary with most_recent_activity := some status.updated_at }
  | some m =>
    if m < status.updated_at then
      { summary with most_recent_activity := some status.updated_at }
    else summary

/-- Source: `StatusTracker.get_summary`.  `worktree_names` is optional
and Python-truthy-tested: `none` and the empty list both mean "no
filter" (and `total_worktrees` then counts the unfiltered statuses). -/
def get_summary (ts : TrackerState) (now : Nat)
    (worktree_names : Option (List String)) : StatusSummary :=
  let all_statuses := ts.store.get_all_statuses
  let truthy := match worktree_names with
    | none => false
    | some names => !names.isEmpty
  let names := worktree_names.getD []
  let all_statuses :=
    if truthy then
      all_statuses.filter (fun s => names.contains s.worktree_name)
    else all_statuses
  let init : StatusSummary :=
    { timestamp := now
      total_worktrees := if truthy then names.length else all_statuses.length
      worktrees_with_status := all_statuses.length
      active_ai_sessions := 0
      idle_ai_sessions := 0
      blocked_ai_sessions := 0
      unknown_status := 0
      total_commands_sent := 0
      most_recent_activity := none
      statuses := all_statuses }
  all_statuses.foldl summaryStep init

end OpenOrch

/-- Claim C3 counterexample: the sanitizer does not map `.` to `-`; a
dot falls outside `[\w-]` and is stripped, so
`sanitize("feature.test")` is `"featuretest"`, not `"feature-test"`. -/
theorem C3_counterexample :
    ClaudeOrch.sanitize_branch_name "feature.test" = "featuretest" ∧
    ClaudeOrch.sanitize_branch_name "feature.test" ≠ "feature-test" := by
  constructor
  · rfl
  · decide

/-- Claim C3 (amended): for every ASCII branch name `b`, the sanitized
branch name contains only characters in `[A-Za-z0-9_-]`; `/` is mapped
to `-` before stripping, while `.` is outside the allowed class and is
stripped rather than mapped: `sanitize("feature/test") = "feature-test"`
but `sanitize("feature.test") = "featuretest"`. -/
theorem C3_sanitize_amended (b : String)
    (hascii : ∀ c ∈ b.data, c.toNat < 128) :
    (∀ c ∈ (ClaudeOrch.sanitize_branch_name b).data,
        c.isAlphanum = true ∨ c = '_' ∨ c = '-') ∧
    ClaudeOrch.sanitize_branch_name "feature/test" = "feature-test" ∧
    ClaudeOrch.sanitize_branch_name "feature.test" = "featuretest" := by
  refine ⟨?_, rfl, rfl⟩
  intro c hc
  have hmem : c ∈ (b.data.map (fun c => if c = '/' then '-' else c)).filter
      (fun c => PyStr.pyIsWord c || c = '-') := hc
  have h2 := (List.mem_filter.mp hmem).2
  simp only [PyStr.pyIsWord, Bool.or_eq_true, decide_eq_true_eq] at h2
  tauto

/-- Witness for C3: the amended theorem applied at `"feature/test"`. -/
theorem C3_sanitize_amended_witness :
    ClaudeOrch.sanitize_branch_name "feature/test" = "feature-test" :=
  (C3_sanitize_amended "feature/test" (by decide)).2.1

/-- Claim C4 counterexample: with a worktree earlier in the list that
matches only by branch suffix (`feature/x` ends with `/x`) and a later
one whose exact name is `x`, `get "x"` returns the earlier suffix match
— an exact name match does not take precedence over a suffix match on an
earlier worktree, refuting the claimed criterion-ordered precedence. -/
theorem C4_counterexample :
    ClaudeOrch.get
        [⟨"/repos/proj-alpha", "feature/x", "abc1234", false, false⟩,
         ⟨"/repos/x", "main", "def5678", false, false⟩] "x" =
      .ok ⟨"/repos/proj-alpha", "feature/x", "abc1234", false, false⟩ ∧
    ClaudeOrch.WorktreeInfo.name ⟨"/repos/x", "main", "def5678", false, false⟩ = "x" ∧
    ClaudeOrch.WorktreeInfo.name
        ⟨"/repos/proj-alpha", "feature/x", "abc1234", false, false⟩ ≠ "x" := by
  refine ⟨rfl, rfl, by decide⟩

/-- Claim C4 (amended): `get` scans the worktree list in order and
returns the first worktree matching any of the four criteria (exact
name, exact branch, exact path, branch suffix `.../identifier`);
precedence is list position, not criterion kind (within one worktree the
four checks are tried in the stated order, but any match on an earlier
worktree wins over any match on a later one).  When no worktree matches
any criterion it fails with the not-found error. -/
theorem C4_get_first_match (worktrees : List ClaudeOrch.WorktreeInfo)
    (identifier : String) :
    ClaudeOrch.get worktrees identifier =
      match worktrees.find? (fun wt => ClaudeOrch.matchesIdentifier wt identifier) with
      | some wt => .ok wt
      | none => .error (.notFound ("Worktree not found: " ++ identifier)) := by
  unfold ClaudeOrch.get
  have : ClaudeOrch.find_worktree worktrees identifier =
      worktrees.find? (fun wt => ClaudeOrch.matchesIdentifier wt identifier) := by
    induction worktrees with
    | nil => rfl
    | cons wt rest ih =>
      cases hm : ClaudeOrch.matchesIdentifier wt identifier with
      | true =>
        simp only [List.find?, hm, cond_true]
        simp only [ClaudeOrch.find_worktree]
        split_ifs with h1 h2 h3 h4
        · rfl
        · rfl
        · rfl
        · rfl
        · exfalso
          simp only [ClaudeOrch.matchesIdentifier, Bool.or_eq_true,
            decide_eq_true_eq] at hm
          tauto
      | false =>
        have hm' : ¬(ClaudeOrch.matchesIdentifier wt identifier = true) := by
          simp [hm]
        have hn : ¬(wt.name = identifier) := fun h =>
          hm' (by simp [ClaudeOrch.matchesIdentifier, h])
        have hb : ¬(wt.branch = identifier) := fun h =>
          hm' (by simp [ClaudeOrch.matchesIdentifier, h])
        have hp : ¬(wt.path = identifier) := fun h =>
          hm' (by simp [ClaudeOrch.matchesIdentifier, h])
        have he : ¬(PyStr.pyEndsWith wt.branch ("/" ++ identifier) = true) :=
          fun h => hm' (by simp [ClaudeOrch.matchesIdentifier, h])
        simp only [List.find?, hm, cond_false]
        simp only [ClaudeOrch.find_worktree]
        rw [if_neg hn, if_neg hb, if_neg hp, if_neg he]
        exact ih
  rw [this]

/-- Claim C5: when the target directory already exists, or a worktree for
the branch already exists elsewhere, `create` without `force` fails with
the already-exists error and issues no mutating git command (empty command
log), so the existing worktree and the worktree list are untouched. -/
theorem C5_create_no_mutation (git_root : String) (env : ClaudeOrch.CreateEnv)
    (branch : String) (base_branch path : Option String)
    (h : env.dirExists
          (path.getD (ClaudeOrch.generate_worktree_path git_root branch)) = true ∨
         (ClaudeOrch.find_worktree env.worktrees branch).isSome = true) :
    ClaudeOrch.isAlreadyExistsErr
        (ClaudeOrch.create git_root env branch base_branch path false).1 = true ∧
    (ClaudeOrch.create git_root env branch base_branch path false).2 = [] := by
  unfold ClaudeOrch.create
  by_cases hd : env.dirExists
      (path.getD (ClaudeOrch.generate_worktree_path git_root branch)) = true
  · simp [hd, ClaudeOrch.isAlreadyExistsErr]
  · rcases h with h | h
    · exact absurd h hd
    · rcases hs : ClaudeOrch.find_worktree env.worktrees branch with _ | wt
      · rw [hs] at h
        simp at h
      · simp [hd, hs, ClaudeOrch.isAlreadyExistsErr]

/-- Witness for C5: a worktree for branch `feature-x` already exists in
the list, `force` is false. -/
theorem C5_create_no_mutation_witness :
    ClaudeOrch.isAlreadyExistsErr
        (ClaudeOrch.create "/repos/proj"
          { worktrees := [⟨"/repos/proj", "main", "abc1234", true, false⟩,
              ⟨"/repos/proj-feature-x", "feature-x", "def5678", false, false⟩],
            dirExists := fun _ => false,
            branchExists := fun _ => true,
            activeBranch := "main",
            addSucceeds := true,
            addStderr := "",
            worktreesAfterAdd := [] }
          "feature-x" none none false).1 = true ∧
    (ClaudeOrch.create "/repos/proj"
        { worktrees := [⟨"/repos/proj", "main", "abc1234", true, false⟩,
            ⟨"/repos/proj-feature-x", "feature-x", "def5678", false, false⟩],
          dirExists := fun _ => false,
          branchExists := fun _ => true,
          activeBranch := "main",
          addSucceeds := true,
          addStderr := "",
          worktreesAfterAdd := [] }
        "feature-x" none none false).2 = [] :=
  C5_create_no_mutation "/repos/proj" _ "feature-x" none none (Or.inr (by decide))

theorem summaryStep_counters (init : OpenOrch.StatusSummary)
    (st : OpenOrch.WorktreeAIStatus) :
    (OpenOrch.summaryStep init st).active_ai_sessions =
      init.active_ai_sessions +
        (if st.activity_status = .working then 1 else 0) ∧
    (OpenOrch.summaryStep init st).idle_ai_sessions =
      init.idle_ai_sessions +
        (if st.activity_status = .idle then 1 else 0) ∧
    (OpenOrch.summaryStep init st).blocked_ai_sessions =
      init.blocked_ai_sessions +
        (if st.activity_status = .blocked then 1 else 0) ∧
    (OpenOrch.summaryStep init st).unknown_status =
      init.unknown_status +
        (if OpenOrch.inUnknownBucket st then 1 else 0) ∧
    (OpenOrch.summaryStep init st).statuses = init.statuses := by
  unfold OpenOrch.summaryStep
  rcases hst : st.activity_status <;>
    simp [hst, OpenOrch.inUnknownBucket] <;>
    split <;> (try simp) <;> (try split) <;> (try simp)

theorem summary_foldl_counts (l : List OpenOrch.WorktreeAIStatus)
    (init : OpenOrch.StatusSummary) :
    (l.foldl OpenOrch.summaryStep init).active_ai_sessions =
      init.active_ai_sessions +
        l.countP (fun st => st.activity_status = .working) ∧
    (l.foldl OpenOrch.summaryStep init).idle_ai_sessions =
      init.idle_ai_sessions +
        l.countP (fun st => st.activity_status = .idle) ∧
    (l.foldl OpenOrch.summaryStep init).blocked_ai_sessions =
      init.blocked_ai_sessions +
        l.countP (fun st => st.activity_status = .blocked) ∧
    (l.foldl OpenOrch.summaryStep init).unknown_status =
      init.unknown_status + l.countP OpenOrch.inUnknownBucket ∧
    (l.foldl OpenOrch.summaryStep init).statuses = init.statuses := by
  induction l generalizing init with
  | nil => simp
  | cons st rest ih =>
    simp only [List.foldl_cons, List.countP_cons]
    obtain ⟨ha, hi, hb, hu, hs⟩ := ih (OpenOrch.summaryStep init st)
    obtain ⟨sa, si, sb, su, ss⟩ := summaryStep_counters init st
    rcases hst : st.activity_status <;>
      simp [hst, OpenOrch.inUnknownBucket, ha, hi, hb, hu, hs,
        sa, si, sb, su, ss] <;>
      omega

theorem counts_partition (l : List OpenOrch.WorktreeAIStatus) :
    l.countP (fun st => st.activity_status = .working) +
    l.countP (fun st => st.activity_status = .idle) +
    l.countP (fun st => st.activity_status = .blocked) +
    l.countP OpenOrch.inUnknownBucket = l.length := by
  induction l with
  | nil => simp
  | cons st rest ih =>
    simp only [List.countP_cons, List.length_cons]
    rcases hst : st.activity_status <;>
      simp [hst, OpenOrch.inUnknownBucket] <;> omega

theorem summary_foldl_zero (l : List OpenOrch.WorktreeAIStatus)
    (init : OpenOrch.StatusSummary)
    (h0 : init.active_ai_sessions = 0 ∧ init.idle_ai_sessions = 0 ∧
          init.blocked_ai_sessions = 0 ∧ init.unknown_status = 0 ∧
          init.statuses = l) :
    (l.foldl OpenOrch.summaryStep init).unknown_status =
      (l.foldl OpenOrch.summaryStep init).statuses.countP
        OpenOrch.inUnknownBucket ∧
    (l.foldl OpenOrch.summaryStep init).active_ai_sessions +
      (l.foldl OpenOrch.summaryStep init).idle_ai_sessions +
      (l.foldl OpenOrch.summaryStep init).blocked_ai_sessions +
      (l.foldl OpenOrch.summaryStep init).unknown_status =
      (l.foldl OpenOrch.summaryStep init).statuses.length := by
  obtain ⟨h0a, h0i, h0b, h0u, h0s⟩ := h0
  obtain ⟨ha, hi, hb, hu, hs⟩ := summary_foldl_counts l init
  constructor
  · rw [hu, hs, h0u, h0s]
    simp
  · rw [ha, hi, hb, hu, hs, h0a, h0i, h0b, h0u, h0s]
    simp only [Nat.zero_add]
    exact counts_partition l

/-- Claim C10: `get_summary` counts every included status whose activity
status is not `working`, `idle` or `blocked` — so also `waiting`,
`completed` and `error` — in the `unknown` bucket, and the four buckets
partition the included statuses: active + idle + blocked + unknown equals
the number of statuses in the summary. -/
theorem C10_summary_partition (ts : OpenOrch.TrackerState) (now : Nat)
    (worktree_names : Option (List String)) :
    (∀ st : OpenOrch.WorktreeAIStatus, OpenOrch.inUnknownBucket st =
      (!(st.activity_status = OpenOrch.AIActivityStatus.working) &&
       !(st.activity_status = OpenOrch.AIActivityStatus.idle) &&
       !(st.activity_status = OpenOrch.AIActivityStatus.blocked))) ∧
    (OpenOrch.get_summary ts now worktree_names).unknown_status =
      (OpenOrch.get_summary ts now worktree_names).statuses.countP
        OpenOrch.inUnknownBucket ∧
    (OpenOrch.get_summary ts now worktree_names).active_ai_sessions +
      (OpenOrch.get_summary ts now worktree_names).idle_ai_sessions +
      (OpenOrch.get_summary ts now worktree_names).blocked_ai_sessions +
      (OpenOrch.get_summary ts now worktree_names).unknown_status =
      (OpenOrch.get_summary ts now worktree_names).statuses.length := by
  refine ⟨?_, ?_⟩
  · intro st
    rcases hst : st.activity_status <;> simp [OpenOrch.inUnknownBucket, hst]
  unfold OpenOrch.get_summary
  exact summary_foldl_zero _ _ ⟨rfl, rfl, rfl, rfl, rfl⟩

theorem setPair_find_self (l : List (String × OpenOrch.WorktreeAIStatus))
    (k : String) (v : OpenOrch.WorktreeAIStatus) :
    (OpenOrch.setPair l k v).find? (fun p => p.1 = k) = some (k, v) := by
  induction l with
  | nil => simp [OpenOrch.setPair, List.find?]
  | cons p rest ih =>
    obtain ⟨k0, v0⟩ := p
    by_cases h : k0 = k
    · subst h
      simp [OpenOrch.setPair, List.find?]
    · simp [OpenOrch.setPair, List.find?, h, ih]

theorem get_status_set_status (s : OpenOrch.StatusStore) (now : Nat)
    (st : OpenOrch.WorktreeAIStatus) :
    (s.set_status now st).get_status st.worktree_name = some st := by
  simp only [OpenOrch.StatusStore.get_status, OpenOrch.StatusStore.set_status]
  rw [setPair_find_self]
  rfl

theorem setPair_setPair (l : List (String × OpenOrch.WorktreeAIStatus))
    (k : String) (v w : OpenOrch.WorktreeAIStatus) :
    OpenOrch.setPair (OpenOrch.setPair l k v) k w = OpenOrch.setPair l k w := by
  induction l with
  | nil => simp [OpenOrch.setPair]
  | cons p rest ih =>
    obtain ⟨k0, v0⟩ := p
    by_cases h : k0 = k <;> simp [OpenOrch.setPair, h, ih]

theorem map_setPair (l : List (String × OpenOrch.WorktreeAIStatus))
    (k : String) (v : OpenOrch.WorktreeAIStatus)
    (f : OpenOrch.WorktreeAIStatus → OpenOrch.WorktreeAIStatus) :
    (OpenOrch.setPair l k v).map (fun p => (p.1, f p.2)) =
      OpenOrch.setPair (l.map (fun p => (p.1, f p.2))) k (f v) := by
  induction l with
  | nil => simp [OpenOrch.setPair]
  | cons p rest ih =>
    obtain ⟨k0, v0⟩ := p
    by_cases h : k0 = k <;> simp [OpenOrch.setPair, h, ih]

/-- Claim C9: `markIdle` is idempotent modulo timestamps — calling it
twice in a row yields the same store as calling it once, aside from
`updatedAt`; the resulting entry has `activity_status = idle` and
`current_task = none`. -/
theorem C9_mark_idle_idempotent (ts : OpenOrch.TrackerState) (t1 t2 : Nat)
    (name : String) (st0 : OpenOrch.WorktreeAIStatus)
    (htrack : ts.store.get_status name = some st0)
    (hkey : st0.worktree_name = name) :
    (OpenOrch.tracker_mark_idle (OpenOrch.tracker_mark_idle ts t1 name).1 t2
        name).1.store.eraseUpdated =
      (OpenOrch.tracker_mark_idle ts t1 name).1.store.eraseUpdated ∧
    (OpenOrch.tracker_mark_idle (OpenOrch.tracker_mark_idle ts t1 name).1 t2
        name).2.map OpenOrch.WorktreeAIStatus.eraseUpdated =
      (OpenOrch.tracker_mark_idle ts t1 name).2.map
        OpenOrch.WorktreeAIStatus.eraseUpdated ∧
    (OpenOrch.tracker_mark_idle (OpenOrch.tracker_mark_idle ts t1 name).1 t2
        name).2.map (fun st => st.activity_status) =
      some OpenOrch.AIActivityStatus.idle ∧
    (OpenOrch.tracker_mark_idle (OpenOrch.tracker_mark_idle ts t1 name).1 t2
        name).2.map (fun st => st.current_task) = some none := by
  have h1 : OpenOrch.tracker_mark_idle ts t1 name =
      (OpenOrch.save_store
        { ts with store := ts.store.set_status t1 (st0.mark_idle t1) },
       some (st0.mark_idle t1)) := by
    unfold OpenOrch.tracker_mark_idle
    rw [htrack]
  have hname : (OpenOrch.WorktreeAIStatus.mark_idle st0 t1).worktree_name =
      name := hkey
  have hget2 := get_status_set_status ts.store t1 (st0.mark_idle t1)
  rw [hname] at hget2
  have h2 : OpenOrch.tracker_mark_idle
      (OpenOrch.tracker_mark_idle ts t1 name).1 t2 name =
      (OpenOrch.save_store
        { ts with store :=
            ((ts.store.set_status t1 (st0.mark_idle t1)).set_status t2
              ((st0.mark_idle t1).mark_idle t2)) },
       some ((st0.mark_idle t1).mark_idle t2)) := by
    rw [h1]
    unfold OpenOrch.tracker_mark_idle
    simp only [OpenOrch.save_store]
    rw [hget2]
  rw [h2, h1]
  refine ⟨?_, ?_, rfl, rfl⟩
  · simp only [OpenOrch.save_store, OpenOrch.WorktreeAIStatus.mark_idle,
      OpenOrch.StatusStore.eraseUpdated, OpenOrch.StatusStore.set_status]
    rw [setPair_setPair, map_setPair, map_setPair]
    simp [OpenOrch.WorktreeAIStatus.eraseUpdated]
  · simp [OpenOrch.WorktreeAIStatus.mark_idle,
      OpenOrch.WorktreeAIStatus.eraseUpdated]

/-- Witness for C9: a concrete one-entry tracker marked idle twice. -/
theorem C9_mark_idle_idempotent_witness :
    (OpenOrch.tracker_mark_idle (OpenOrch.tracker_mark_idle
        ⟨⟨"1.1", 5, [("wt", ⟨"wt", "/p/wt", "dev", none, "claude",
          OpenOrch.AIActivityStatus.working, some "task", none, [], none,
          1, 4⟩)]⟩, none⟩ 6 "wt").1 7
        "wt").1.store.eraseUpdated =
      (OpenOrch.tracker_mark_idle
        ⟨⟨"1.1", 5, [("wt", ⟨"wt", "/p/wt", "dev", none, "claude",
          OpenOrch.AIActivityStatus.working, some "task", none, [], none,
          1, 4⟩)]⟩, none⟩ 6 "wt").1.store.eraseUpdated ∧
    (OpenOrch.tracker_mark_idle (OpenOrch.tracker_mark_idle
        ⟨⟨"1.1", 5, [("wt", ⟨"wt", "/p/wt", "dev", none, "claude",
          OpenOrch.AIActivityStatus.working, some "task", none, [], none,
          1, 4⟩)]⟩, none⟩ 6 "wt").1 7
        "wt").2.map OpenOrch.WorktreeAIStatus.eraseUpdated =
      (OpenOrch.tracker_mark_idle
        ⟨⟨"1.1", 5, [("wt", ⟨"wt", "/p/wt", "dev", none, "claude",
          OpenOrch.AIActivityStatus.working, some "task", none, [], none,
          1, 4⟩)]⟩, none⟩ 6 "wt").2.map
        OpenOrch.WorktreeAIStatus.eraseUpdated ∧
    (OpenOrch.tracker_mark_idle (OpenOrch.tracker_mark_idle
        ⟨⟨"1.1", 5, [("wt", ⟨"wt", "/p/wt", "dev", none, "claude",
          OpenOrch.AIActivityStatus.working, some "task", none, [], none,
          1, 4⟩)]⟩, none⟩ 6 "wt").1 7
        "wt").2.map (fun st => st.activity_status) =
      some OpenOrch.AIActivityStatus.idle ∧
    (OpenOrch.tracker_mark_idle (OpenOrch.tracker_mark_idle
        ⟨⟨"1.1", 5, [("wt", ⟨"wt", "/p/wt", "dev", none, "claude",
          OpenOrch.AIActivityStatus.working, some "task", none, [], none,
          1, 4⟩)]⟩, none⟩ 6 "wt").1 7
        "wt").2.map (fun st => st.current_task) = some none :=
  C9_mark_idle_idempotent _ 6 7 "wt"
    ⟨"wt", "/p/wt", "dev", none, "claude", OpenOrch.AIActivityStatus.working,
      some "task", none, [], none, 1, 4⟩ rfl rfl

theorem removePair_cons_ne (k0 : String) (v0 : OpenOrch.WorktreeAIStatus)
    (rest : List (String × OpenOrch.WorktreeAIStatus)) (k : String)
    (h : k0 ≠ k) :
    OpenOrch.removePair ((k0, v0) :: rest) k =
      (k0, v0) :: OpenOrch.removePair rest k := by
  simp [OpenOrch.removePair, h]

theorem removePair_of_no_key (l : List (String × OpenOrch.WorktreeAIStatus))
    (k : String) (h : ∀ p ∈ l, p.1 ≠ k) : OpenOrch.removePair l k = l := by
  induction l with
  | nil => rfl
  | cons p rest ih =>
    obtain ⟨k0, v0⟩ := p
    rw [removePair_cons_ne _ _ _ _ (h (k0, v0) (List.mem_cons_self _ _))]
    rw [ih (fun q hq => h q (List.mem_cons_of_mem _ hq))]

theorem remove_status_statuses (s : OpenOrch.StatusStore) (now : Nat)
    (k : String) :
    ((s.remove_status now k).1).statuses = OpenOrch.removePair s.statuses k := by
  unfold OpenOrch.StatusStore.remove_status
  split
  · rfl
  · rename_i h
    rw [removePair_of_no_key]
    intro p hp
    simp only [List.any_eq_true, not_exists] at h
    have := h p
    simp only [hp, decide_eq_true_eq] at this
    simpa using this

theorem fold_remove_statuses (names : List String) (s : OpenOrch.StatusStore)
    (now : Nat) :
    (names.foldl (fun acc n => (acc.remove_status now n).1) s).statuses =
      names.foldl (fun l n => OpenOrch.removePair l n) s.statuses := by
  induction names generalizing s with
  | nil => rfl
  | cons n rest ih =>
    simp only [List.foldl_cons]
    rw [ih, remove_status_statuses]

theorem cleanup_fold_split (valid : List String) (now : Nat)
    (names : List String) (s : OpenOrch.StatusStore) (r : List String) :
    (names.foldl (fun acc name => if valid.contains name then acc
        else ((acc.1.remove_status now name).1, acc.2 ++ [name])) (s, r)) =
    ((names.filter (fun n => !valid.contains n)).foldl
        (fun st n => (st.remove_status now n).1) s,
     r ++ names.filter (fun n => !valid.contains n)) := by
  induction names generalizing s r with
  | nil => simp
  | cons n rest ih =>
    simp only [List.foldl_cons, List.filter_cons]
    cases h : valid.contains n with
    | true =>
      simp only [h, Bool.not_true, Bool.false_eq_true, if_false,
        eq_self_iff_true, if_true]
      exact ih s r
    | false =>
      simp only [h, Bool.not_false, Bool.false_eq_true, if_false,
        eq_self_iff_true, if_true]
      rw [ih]
      simp

theorem remAll_cons_ne (ns : List String) (k0 : String)
    (v0 : OpenOrch.WorktreeAIStatus)
    (l : List (String × OpenOrch.WorktreeAIStatus))
    (h : ∀ n ∈ ns, n ≠ k0) :
    ns.foldl (fun acc n => OpenOrch.removePair acc n) ((k0, v0) :: l) =
      (k0, v0) :: ns.foldl (fun acc n => OpenOrch.removePair acc n) l := by
  induction ns generalizing l with
  | nil => rfl
  | cons n rest ih =>
    simp only [List.foldl_cons]
    rw [removePair_cons_ne _ _ _ _ (Ne.symm (h n (List.mem_cons_self _ _)))]
    exact ih _ (fun m hm => h m (List.mem_cons_of_mem _ hm))

theorem remAll_filter_eq (valid : List String)
    (l : List (String × OpenOrch.WorktreeAIStatus))
    (hnd : (l.map Prod.fst).Nodup) :
    ((l.map Prod.fst).filter (fun n => !valid.contains n)).foldl
        (fun acc n => OpenOrch.removePair acc n) l =
      l.filter (fun p => valid.contains p.1) := by
  induction l with
  | nil => rfl
  | cons p rest ih =>
    obtain ⟨k, v⟩ := p
    simp only [List.map_cons] at hnd
    have hk : k ∉ rest.map Prod.fst := (List.nodup_cons.mp hnd).1
    have hnd' := (List.nodup_cons.mp hnd).2
    simp only [List.map_cons, List.filter_cons]
    cases h : valid.contains k with
    | true =>
      simp only [h, Bool.not_true, Bool.false_eq_true, if_false,
        eq_self_iff_true, if_true]
      rw [remAll_cons_ne]
      · rw [ih hnd']
      · intro n hn hnk
        apply hk
        rw [hnk] at hn
        exact List.mem_of_mem_filter hn
    | false =>
      simp only [h, Bool.not_false, Bool.false_eq_true, if_false,
        eq_self_iff_true, if_true, List.foldl_cons]
      rw [show OpenOrch.removePair ((k, v) :: rest) k = rest by
        simp [OpenOrch.removePair]]
      rw [ih hnd']

theorem add_command_recent (st : OpenOrch.WorktreeAIStatus) (now : Nat)
    (c : String) (src : Option String) (pi wi : Int) (m : Nat) :
    (st.add_command now c src pi wi m).recent_commands =
      (if m < (st.recent_commands ++
          [(⟨now, c, src, pi, wi⟩ : OpenOrch.CommandRecord)]).length
       then OpenOrch.pyTailSlice m (st.recent_commands ++
          [(⟨now, c, src, pi, wi⟩ : OpenOrch.CommandRecord)])
       else st.recent_commands ++
          [(⟨now, c, src, pi, wi⟩ : OpenOrch.CommandRecord)]) := rfl

theorem pyTailSlice_length_eq (m : Nat) (hm : ¬m = 0)
    (l : List OpenOrch.CommandRecord) (h : m < l.length) :
    (OpenOrch.pyTailSlice m l).length = m := by
  unfold OpenOrch.pyTailSlice
  rw [if_neg hm, List.length_drop]
  omega

theorem add_command_length_le (st : OpenOrch.WorktreeAIStatus) (now : Nat)
    (c : String) (src : Option String) (pi wi : Int) (m : Nat)
    (hm : 1 ≤ m) (hlen : st.recent_commands.length ≤ m) :
    (st.add_command now c src pi wi m).recent_commands.length ≤ m := by
  rw [add_command_recent]
  split
  · rename_i h
    exact le_of_eq (pyTailSlice_length_eq m (by omega) _ h)
  · rename_i h
    simp only [not_lt] at h
    exact h

theorem add_command_suffix (st : OpenOrch.WorktreeAIStatus) (now : Nat)
    (c : String) (src : Option String) (pi wi : Int) (m : Nat) :
    (st.add_command now c src pi wi m).recent_commands <:+
      st.recent_commands ++ [⟨now, c, src, pi, wi⟩] := by
  rw [add_command_recent]
  split
  · unfold OpenOrch.pyTailSlice
    split
    · exact List.suffix_refl _
    · exact List.drop_suffix _ _
  · exact List.suffix_refl _

theorem add_command_getLast (st : OpenOrch.WorktreeAIStatus) (now : Nat)
    (c : String) (src : Option String) (pi wi : Int) (m : Nat) :
    (st.add_command now c src pi wi m).recent_commands.getLast? =
      some ⟨now, c, src, pi, wi⟩ := by
  rw [add_command_recent]
  split
  · rename_i h
    unfold OpenOrch.pyTailSlice
    split
    · exact List.getLast?_concat _
    · rename_i hm0
      rw [List.drop_append_of_le_length]
      · exact List.getLast?_concat _
      · simp only [List.length_append, List.length_cons,
          List.length_nil] at h ⊢
        omega
  · exact List.getLast?_concat _

theorem mem_setPair (l : List (String × OpenOrch.WorktreeAIStatus))
    (k : String) (v : OpenOrch.WorktreeAIStatus)
    (p : String × OpenOrch.WorktreeAIStatus)
    (hp : p ∈ OpenOrch.setPair l k v) : p ∈ l ∨ p = (k, v) := by
  induction l with
  | nil =>
    simp only [OpenOrch.setPair, List.mem_singleton] at hp
    right
    exact hp
  | cons q rest ih =>
    obtain ⟨k0, v0⟩ := q
    by_cases h : k0 = k
    · subst h
      simp only [OpenOrch.setPair, if_pos rfl] at hp
      rcases List.mem_cons.mp hp with h1 | h1
      · right
        rw [h1]
      · left
        exact List.mem_cons_of_mem _ h1
    · simp only [OpenOrch.setPair, if_neg h] at hp
      rcases List.mem_cons.mp hp with h1 | h1
      · left
        rw [h1]
        exact List.mem_cons_self _ _
      · rcases ih h1 with h2 | h2
        · left
          exact List.mem_cons_of_mem _ h2
        · right
          exact h2

theorem get_status_mem (s : OpenOrch.StatusStore) (name : String)
    (st : OpenOrch.WorktreeAIStatus) (hg : s.get_status name = some st) :
    ∃ k, (k, st) ∈ s.statuses := by
  unfold OpenOrch.StatusStore.get_status at hg
  cases hf : s.statuses.find? (fun p => p.1 = name) with
  | none =>
    rw [hf] at hg
    simp at hg
  | some q =>
    rw [hf] at hg
    have h2 : q.2 = st := by
      simpa using hg
    refine ⟨q.1, ?_⟩
    have hmem := List.mem_of_find?_eq_some hf
    rw [← h2]
    simpa using hmem

theorem record_command_inv (config : OpenOrch.StatusConfig)
    (hm : 1 ≤ config.max_command_history) (ts : OpenOrch.TrackerState)
    (c : OpenOrch.RecordCall)
    (hinv : ∀ p ∈ ts.store.statuses,
      p.2.recent_commands.length ≤ config.max_command_history) :
    ∀ p ∈ (OpenOrch.applyRecord config ts c).store.statuses,
      p.2.recent_commands.length ≤ config.max_command_history := by
  unfold OpenOrch.applyRecord OpenOrch.record_command
  cases hg : ts.store.get_status c.target with
  | none => exact hinv
  | some st0 =>
    have hst0 : st0.recent_commands.length ≤ config.max_command_history := by
      obtain ⟨k, hk⟩ := get_status_mem _ _ _ hg
      exact hinv (k, st0) hk
    simp only [OpenOrch.save_store, OpenOrch.StatusStore.set_status]
    intro p hp
    rcases mem_setPair _ _ _ _ hp with h1 | h1
    · exact hinv p h1
    · rw [h1]
      have hrec : ∀ (wt : OpenOrch.WorktreeAIStatus),
          (if wt.activity_status = OpenOrch.AIActivityStatus.idle
           then { wt with activity_status := OpenOrch.AIActivityStatus.working }
           else wt).recent_commands = wt.recent_commands := by
        intro wt
        split <;> rfl
      simp only [hrec]
      split
      · exact add_command_length_le st0 _ _ _ _ _ _ hm hst0
      · exact hst0

theorem fold_record_inv (config : OpenOrch.StatusConfig)
    (hm : 1 ≤ config.max_command_history)
    (calls : List OpenOrch.RecordCall) :
    ∀ (ts : OpenOrch.TrackerState),
    (∀ p ∈ ts.store.statuses,
      p.2.recent_commands.length ≤ config.max_command_history) →
    ∀ p ∈ (calls.foldl (OpenOrch.applyRecord config) ts).store.statuses,
      p.2.recent_commands.length ≤ config.max_command_history := by
  induction calls with
  | nil => exact fun ts h => h
  | cons c rest ih =>
    intro ts h
    exact ih _ (record_command_inv config hm ts c h)

theorem processLines_eq_procStripped (git_root : String)
    (lines : List String) (cur : ClaudeOrch.RawEntry) :
    ClaudeOrch.processLines git_root lines cur =
      ClaudeOrch.procStripped git_root (lines.map PyStr.pyStrip) cur := by
  induction lines generalizing cur with
  | nil => rfl
  | cons l rest ih =>
    simp only [List.map_cons, ClaudeOrch.processLines, ClaudeOrch.procStripped]
    by_cases h : PyStr.pyStrip l = "" <;>
      by_cases hc : cur = ClaudeOrch.emptyEntry <;>
      simp [h, hc, ih]

theorem procStripped_append_block (git_root : String)
    (block rest : List String) (cur : ClaudeOrch.RawEntry)
    (hb : ∀ l ∈ block, l ≠ "") :
    ClaudeOrch.procStripped git_root (block ++ rest) cur =
      ClaudeOrch.procStripped git_root rest
        (block.foldl ClaudeOrch.applyLine cur) := by
  induction block generalizing cur with
  | nil => rfl
  | cons l bl ih =>
    have hl : l ≠ "" := hb l (List.mem_cons_self _ _)
    simp only [List.cons_append, ClaudeOrch.procStripped, List.foldl_cons]
    rw [if_neg hl]
    exact ih _ (fun m hm => hb m (List.mem_cons_of_mem _ hm))

theorem dropWhile_head_false (p : String → Bool) (l : List String)
    (a : String) (as : List String) (h : l.dropWhile p = a :: as) :
    p a = false := by
  induction l with
  | nil => simp [List.dropWhile] at h
  | cons x xs ih =>
    rw [List.dropWhile_cons] at h
    split at h
    · exact ih h
    · rename_i hp
      cases hpa : p x
      · rw [(List.cons.injEq _ _ _ _ |>.mp h).1] at hpa
        exact hpa
      · exact absurd hpa hp

theorem procStripped_nil_flush (git_root : String) (block : List String) :
    ClaudeOrch.procStripped git_root []
        (block.foldl ClaudeOrch.applyLine ClaudeOrch.emptyEntry) =
      (ClaudeOrch.parseBlock git_root block).toList := by
  unfold ClaudeOrch.procStripped ClaudeOrch.parseBlock
  split <;> rename_i hA <;> simp [hA]

theorem procStripped_blank_flush (git_root : String)
    (block rest3 : List String) :
    ClaudeOrch.procStripped git_root ("" :: rest3)
        (block.foldl ClaudeOrch.applyLine ClaudeOrch.emptyEntry) =
      (ClaudeOrch.parseBlock git_root block).toList ++
        ClaudeOrch.procStripped git_root rest3 ClaudeOrch.emptyEntry := by
  simp only [ClaudeOrch.procStripped, ClaudeOrch.parseBlock]
  simp only [if_true]
  split <;> rename_i hA <;> simp [hA]

theorem procStripped_blocks (git_root : String) :
    ∀ (n : Nat) (ls : List String), ls.length ≤ n →
    ClaudeOrch.procStripped git_root ls ClaudeOrch.emptyEntry =
      (ClaudeOrch.blocksOf ls).filterMap (ClaudeOrch.parseBlock git_root) := by
  intro n
  induction n with
  | zero =>
    intro ls h
    have hnil : ls = [] := List.length_eq_zero.mp (Nat.le_zero.mp h)
    subst hnil
    simp [ClaudeOrch.blocksOf, ClaudeOrch.procStripped]
  | succ n ih =>
    intro ls hlen
    match ls with
    | [] => simp [ClaudeOrch.blocksOf, ClaudeOrch.procStripped]
    | l :: rest =>
      simp only [List.length_cons, Nat.add_le_add_iff_right] at hlen
      by_cases h : l = ""
      · subst h
        have hb : ClaudeOrch.blocksOf ("" :: rest) = ClaudeOrch.blocksOf rest := by
          rw [ClaudeOrch.blocksOf]
          simp
        rw [hb]
        have hp : ClaudeOrch.procStripped git_root ("" :: rest)
            ClaudeOrch.emptyEntry =
            ClaudeOrch.procStripped git_root rest ClaudeOrch.emptyEntry := by
          simp [ClaudeOrch.procStripped]
        rw [hp]
        exact ih rest hlen
      · have hb : ClaudeOrch.blocksOf (l :: rest) =
            (l :: rest.takeWhile (fun s => s ≠ "")) ::
              ClaudeOrch.blocksOf (rest.dropWhile (fun s => s ≠ "")) := by
          rw [ClaudeOrch.blocksOf]
          rw [if_neg h]
        rw [hb, List.filterMap_cons]
        have hsplit : l :: rest =
            (l :: rest.takeWhile (fun s => s ≠ "")) ++
              rest.dropWhile (fun s => s ≠ "") := by
          rw [List.cons_append]
          congr 1
          exact (List.takeWhile_append_dropWhile _ _).symm
        rw [hsplit, procStripped_append_block]
        · rcases hd : rest.dropWhile (fun s => s ≠ "") with _ | ⟨l2, rest3⟩
          · rw [procStripped_nil_flush]
            cases hpB : ClaudeOrch.parseBlock git_root
                (l :: rest.takeWhile (fun s => s ≠ "")) <;>
              simp [hpB, ClaudeOrch.blocksOf]
          · have hl2 : l2 = "" := by
              have := dropWhile_head_false _ _ _ _ hd
              simpa using this
            subst hl2
            have hdlen : (("" : String) :: rest3).length ≤ rest.length := by
              rw [← hd]
              exact List.IsSuffix.length_le (List.dropWhile_suffix _)
            have hr3len : rest3.length ≤ n := by
              simp only [List.length_cons] at hdlen
              omega
            have hrec := ih rest3 hr3len
            have hb2 : ClaudeOrch.blocksOf ("" :: rest3) =
                ClaudeOrch.blocksOf rest3 := by
              rw [ClaudeOrch.blocksOf]
              simp
            rw [procStripped_blank_flush, hrec, hb2]
            cases hpB : ClaudeOrch.parseBlock git_root
                (l :: rest.takeWhile (fun s => s ≠ "")) <;>
              simp [hpB]
        · intro m hm
          rcases List.mem_cons.mp hm with h1 | h1
          · rw [h1]
            exact h
          · have := List.mem_takeWhile_imp h1
            simpa using this

/-- Claim C8: `list_all` returns the empty list (rather than raising)
whenever the underlying `git worktree list --porcelain` command fails;
on success it parses the output block by block — blocks are the maximal
runs of non-blank (stripped) lines, and each block yields at most one
record (none when no recognized field line occurs in it). -/
theorem C8_list_all_blocks (git_root : String) :
    (∀ msg, ClaudeOrch.list_all git_root (.error msg) = []) ∧
    (∀ output, ClaudeOrch.list_all git_root (.ok output) =
      (ClaudeOrch.blocksOf ((PyStr.pyLines output).map PyStr.pyStrip)).filterMap
        (ClaudeOrch.parseBlock git_root)) := by
  constructor
  · intro msg
    rfl
  · intro output
    have hLA : ClaudeOrch.list_all git_root (.ok output) =
        ClaudeOrch.processLines git_root (PyStr.pyLines output)
          ClaudeOrch.emptyEntry := rfl
    rw [hLA, processLines_eq_procStripped]
    exact procStripped_blocks git_root _ _ (le_refl _)

theorem asNat_natCast (n : Nat) :
    OpenOrch.Json.asNat (OpenOrch.Json.int n) = some n := by
  show (if ((n : Int)) < 0 then none else some ((n : Int)).toNat) = some n
  rw [if_neg (by omega), Int.toNat_ofNat]

theorem natCast_not_lt_zero (v : Nat) : ¬((v : Int) < 0) := by omega

theorem ofStr_toStr (s : OpenOrch.AIActivityStatus) :
    OpenOrch.AIActivityStatus.ofStr s.toStr = some s := by
  cases s <;> rfl

theorem decode_encode_cmd (c : OpenOrch.CommandRecord) :
    OpenOrch.decodeCommandRecord (OpenOrch.encodeCommandRecord c) = some c := by
  obtain ⟨t, cmd, src, pi, wi⟩ := c
  cases src <;>
    simp [OpenOrch.decodeCommandRecord, OpenOrch.encodeCommandRecord,
      OpenOrch.Json.getField, OpenOrch.Json.asStr, OpenOrch.Json.asInt,
      OpenOrch.Json.getOptStrField, OpenOrch.encodeOptStr, asNat_natCast,
      List.find?]

theorem decodeList_encode_cmd (l : List OpenOrch.CommandRecord) :
    OpenOrch.decodeList OpenOrch.decodeCommandRecord
      (l.map OpenOrch.encodeCommandRecord) = some l := by
  induction l with
  | nil => rfl
  | cons c rest ih =>
    simp [OpenOrch.decodeList, decode_encode_cmd c, ih]

theorem decode_encode_status (st : OpenOrch.WorktreeAIStatus) :
    OpenOrch.decodeStatus (OpenOrch.encodeStatus st) = some st := by
  obtain ⟨n, p, b, sess, tool, act, task, ltu, rc, notes, ca, ua⟩ := st
  cases sess <;> cases task <;> cases ltu <;> cases notes <;>
    simp [OpenOrch.decodeStatus, OpenOrch.encodeStatus, OpenOrch.Json.getField,
      OpenOrch.Json.asStr, OpenOrch.Json.asInt, OpenOrch.Json.getOptStrField,
      OpenOrch.Json.getOptNatField, OpenOrch.encodeOptStr,
      OpenOrch.encodeOptNat, asNat_natCast, ofStr_toStr,
      decodeList_encode_cmd, natCast_not_lt_zero, List.find?]

theorem decodePairs_encode_status
    (l : List (String × OpenOrch.WorktreeAIStatus)) :
    OpenOrch.decodePairs OpenOrch.decodeStatus
      (l.map (fun p => (p.1, OpenOrch.encodeStatus p.2))) = some l := by
  induction l with
  | nil => rfl
  | cons p rest ih =>
    obtain ⟨k, v⟩ := p
    simp [OpenOrch.decodePairs, decode_encode_status, ih]

theorem decode_encode_store (s : OpenOrch.StatusStore) :
    OpenOrch.decodeStore (OpenOrch.encodeStore s) = some s := by
  obtain ⟨v, u, statuses⟩ := s
  simp [OpenOrch.decodeStore, OpenOrch.encodeStore, OpenOrch.Json.getField,
    OpenOrch.Json.asStr, asNat_natCast, decodePairs_encode_status, List.find?]

theorem load_save (ts : OpenOrch.TrackerState) (lnow : Nat) :
    OpenOrch.load_store lnow (OpenOrch.save_store ts).disk = ts.store := by
  simp [OpenOrch.load_store, OpenOrch.save_store, decode_encode_store]

/-- Claim C1: with redaction and command storage enabled, `record_command`
on a tracked worktree followed by a reload of the persisted store yields
an entry whose `recent_commands` tail is the recorded command with
secrets redacted; in particular the input `"echo password=hunter2"` is
stored as `"echo password=[REDACTED]"` and the raw value `hunter2` never
appears in the stored command text. -/
theorem C1_record_roundtrip_redacts (config : OpenOrch.StatusConfig)
    (ts : OpenOrch.TrackerState) (now lnow : Nat) (name cmd : String)
    (src : Option String) (pi wi : Int) (st0 : OpenOrch.WorktreeAIStatus)
    (htrack : ts.store.get_status name = some st0)
    (hkey : st0.worktree_name = name)
    (hred : config.redact_commands = true)
    (hstore : config.store_commands = true) :
    ((OpenOrch.load_store lnow
        (OpenOrch.record_command config ts now name cmd src pi
          wi).1.disk).get_status name).bind
        (fun st => st.recent_commands.getLast?) =
      some ⟨now, OpenOrch.sanitize_command cmd, src, pi, wi⟩ ∧
    OpenOrch.sanitize_command "echo password=hunter2" =
      "echo password=[REDACTED]" ∧
    PyStr.strHasSub "hunter2"
      (OpenOrch.sanitize_command "echo password=hunter2") = false := by
  refine ⟨?_, by decide, by decide⟩
  unfold OpenOrch.record_command
  cases hg : ts.store.get_status name with
  | none =>
    rw [htrack] at hg
    exact absurd hg (by simp)
  | some st1 =>
    rw [htrack] at hg
    have hst1 : st1 = st0 := (Option.some_inj.mp hg).symm
    subst hst1
    rw [if_pos hred]
    simp only [hstore, eq_self_iff_true, if_true]
    rw [load_save]
    set A := st1.add_command now (OpenOrch.sanitize_command cmd) src pi wi
      config.max_command_history with hA
    have hWname : (if A.activity_status = OpenOrch.AIActivityStatus.idle
        then { A with activity_status := OpenOrch.AIActivityStatus.working }
        else A).worktree_name = name := by
      split
      · show A.worktree_name = name
        rw [hA]
        exact hkey
      · show A.worktree_name = name
        rw [hA]
        exact hkey
    conv_lhs => rw [← hWname]
    rw [get_status_set_status]
    show (if A.activity_status = OpenOrch.AIActivityStatus.idle
        then { A with activity_status := OpenOrch.AIActivityStatus.working }
        else A).recent_commands.getLast? =
      some ⟨now, OpenOrch.sanitize_command cmd, src, pi, wi⟩
    have hrec : (if A.activity_status = OpenOrch.AIActivityStatus.idle
        then { A with activity_status := OpenOrch.AIActivityStatus.working }
        else A).recent_commands = A.recent_commands := by
      split <;> rfl
    rw [hrec, hA]
    exact add_command_getLast st1 now (OpenOrch.sanitize_command cmd) src pi
      wi config.max_command_history

/-- Witness for C1: a concrete one-entry tracker recording
`"echo password=hunter2"`, reloaded from disk. -/
theorem C1_record_roundtrip_redacts_witness :
    ((OpenOrch.load_store 99
        (OpenOrch.record_command OpenOrch.StatusConfig.default
          ⟨⟨"1.1", 1, [("wt", ⟨"wt", "/p/wt", "dev", none, "claude",
            OpenOrch.AIActivityStatus.idle, none, none, [], none, 1, 1⟩)]⟩,
           none⟩ 2 "wt" "echo password=hunter2" none 0
          0).1.disk).get_status "wt").bind
        (fun st => st.recent_commands.getLast?) =
      some ⟨2, OpenOrch.sanitize_command "echo password=hunter2", none, 0, 0⟩ ∧
    OpenOrch.sanitize_command "echo password=hunter2" =
      "echo password=[REDACTED]" ∧
    PyStr.strHasSub "hunter2"
      (OpenOrch.sanitize_command "echo password=hunter2") = false :=
  C1_record_roundtrip_redacts OpenOrch.StatusConfig.default
    ⟨⟨"1.1", 1, [("wt", ⟨"wt", "/p/wt", "dev", none, "claude",
      OpenOrch.AIActivityStatus.idle, none, none, [], none, 1, 1⟩)]⟩,
     none⟩ 2 99 "wt" "echo password=hunter2" none 0 0
    ⟨"wt", "/p/wt", "dev", none, "claude", OpenOrch.AIActivityStatus.idle,
      none, none, [], none, 1, 1⟩ rfl rfl rfl rfl

set_option maxRecDepth 10000

/-- Claim C2: after initializing a worktree's status and any finite
sequence of `record_command` calls (cap at least 1, as `StatusConfig`'s
validation enforces), every tracked entry's `recent_commands` length is at
most `max_command_history`; eviction is FIFO — the kept history is always
a suffix of the old history plus the new record, so only the oldest
entries are dropped; and concretely, initializing `feature-x` and
recording 25 commands with cap 20 leaves exactly the 20 newest commands
`cmd5`..`cmd24` (the 5 oldest are gone) with `activity_status = working`. -/
theorem C2_history_bound (config : OpenOrch.StatusConfig)
    (hm : 1 ≤ config.max_command_history)
    (ts : OpenOrch.TrackerState) (now : Nat)
    (name path branch : String) (sess : Option String) (tool : String)
    (calls : List OpenOrch.RecordCall)
    (hinv : ∀ p ∈ ts.store.statuses,
      p.2.recent_commands.length ≤ config.max_command_history) :
    (∀ p ∈ (calls.foldl (OpenOrch.applyRecord config)
        (OpenOrch.initialize_status ts now name path branch sess
          tool).1).store.statuses,
      p.2.recent_commands.length ≤ config.max_command_history) ∧
    (∀ (st : OpenOrch.WorktreeAIStatus) (t : Nat) (c : String)
        (src : Option String) (pi wi : Int),
      (st.add_command t c src pi wi
          config.max_command_history).recent_commands <:+
        st.recent_commands ++ [⟨t, c, src, pi, wi⟩]) ∧
    ((((List.range 25).map (fun i =>
        OpenOrch.RecordCall.mk (i+1) "feature-x" ("cmd" ++ toString i)
          none 0 0)).foldl
        (OpenOrch.applyRecord OpenOrch.StatusConfig.default)
        (OpenOrch.initialize_status ⟨⟨"1.1", 0, []⟩, none⟩ 0 "feature-x"
          "/p/feature-x" "feature-x" none "claude").1).store.get_status
        "feature-x").map
        (fun st => (st.recent_commands.map (fun r => r.command),
          st.recent_commands.length, st.activity_status)) =
      some ((List.range 20).map (fun i => "cmd" ++ toString (i+5)), 20,
        OpenOrch.AIActivityStatus.working) := by
  refine ⟨?_, ?_, by decide⟩
  · apply fold_record_inv config hm
    intro p hp
    unfold OpenOrch.initialize_status at hp
    simp only [OpenOrch.save_store, OpenOrch.StatusStore.set_status] at hp
    rcases mem_setPair _ _ _ _ hp with h | h
    · exact hinv p h
    · rw [h]
      simp
  · intro st t c src pi wi
    exact add_command_suffix st t c src pi wi config.max_command_history

/-- Witness for C2: the concrete 25-command scenario at cap 20. -/
theorem C2_history_bound_witness :
    ((((List.range 25).map (fun i =>
        OpenOrch.RecordCall.mk (i+1) "feature-x" ("cmd" ++ toString i)
          none 0 0)).foldl
        (OpenOrch.applyRecord OpenOrch.StatusConfig.default)
        (OpenOrch.initialize_status ⟨⟨"1.1", 0, []⟩, none⟩ 0 "feature-x"
          "/p/feature-x" "feature-x" none "claude").1).store.get_status
        "feature-x").map
        (fun st => (st.recent_commands.map (fun r => r.command),
          st.recent_commands.length, st.activity_status)) =
      some ((List.range 20).map (fun i => "cmd" ++ toString (i+5)), 20,
        OpenOrch.AIActivityStatus.working) :=
  (C2_history_bound OpenOrch.StatusConfig.default (by decide)
    ⟨⟨"1.1", 0, []⟩, none⟩ 0 "feature-x" "/p/feature-x" "feature-x" none
    "claude" [] (by simp)).2.2

/-- Claim C7: `cleanup_orphans(validNames)` removes exactly the tracked
entries whose worktree name is absent from `validNames`, returns the list
of removed names, and leaves every remaining entry with identical field
values (the surviving association list is literally the filtered original).
Hypotheses: store keys are unique and each entry is keyed by its own
`worktree_name`, which holds for every store the tracker builds. -/
theorem C7_cleanup_orphans_exact (ts : OpenOrch.TrackerState) (now : Nat)
    (valid : List String)
    (hwf : ∀ p ∈ ts.store.statuses, p.2.worktree_name = p.1)
    (hnd : (ts.store.statuses.map Prod.fst).Nodup) :
    (OpenOrch.cleanup_orphans ts now valid).1.store.statuses =
      ts.store.statuses.filter (fun p => valid.contains p.1) ∧
    (OpenOrch.cleanup_orphans ts now valid).2 =
      (ts.store.statuses.map Prod.fst).filter (fun n => !valid.contains n) := by
  simp only [OpenOrch.cleanup_orphans]
  have hnames : ts.store.get_all_statuses.map (fun s => s.worktree_name) =
      ts.store.statuses.map Prod.fst := by
    simp only [OpenOrch.StatusStore.get_all_statuses, List.map_map]
    exact List.map_congr_left (fun p hp => hwf p hp)
  rw [hnames, cleanup_fold_split valid now]
  constructor
  · have hstore : ∀ (c : Bool) (ts' : OpenOrch.TrackerState),
        (if c then ts' else OpenOrch.save_store ts').store = ts'.store := by
      intro c ts'
      cases c <;> rfl
    simp only [List.nil_append, hstore]
    rw [fold_remove_statuses, remAll_filter_eq valid _ hnd]
  · have hsnd : ∀ (c : Bool) (ts' : OpenOrch.TrackerState)
        (r : List String), ((if c then ts' else OpenOrch.save_store ts'), r).2 = r := by
      intro c ts' r
      rfl
    simp

/-- Witness for C7: a three-entry store cleaned against two valid names. -/
theorem C7_cleanup_orphans_exact_witness :
    (OpenOrch.cleanup_orphans
        ⟨⟨"1.1", 3, [("a", ⟨"a", "/p/a", "dev-a", none, "claude",
            OpenOrch.AIActivityStatus.idle, none, none, [], none, 1, 1⟩),
          ("b", ⟨"b", "/p/b", "dev-b", none, "claude",
            OpenOrch.AIActivityStatus.working, some "t", none, [], none, 2, 2⟩),
          ("c", ⟨"c", "/p/c", "dev-c", none, "claude",
            OpenOrch.AIActivityStatus.blocked, none, none, [], none, 3, 3⟩)]⟩,
         none⟩ 9 ["a", "c"]).1.store.statuses =
      ([("a", ⟨"a", "/p/a", "dev-a", none, "claude",
            OpenOrch.AIActivityStatus.idle, none, none, [], none, 1, 1⟩),
        ("b", ⟨"b", "/p/b", "dev-b", none, "claude",
            OpenOrch.AIActivityStatus.working, some "t", none, [], none, 2, 2⟩),
        ("c", ⟨"c", "/p/c", "dev-c", none, "claude",
            OpenOrch.AIActivityStatus.blocked, none, none, [], none, 3, 3⟩)].filter
        (fun p => ["a", "c"].contains p.1)) ∧
    (OpenOrch.cleanup_orphans
        ⟨⟨"1.1", 3, [("a", ⟨"a", "/p/a", "dev-a", none, "claude",
            OpenOrch.AIActivityStatus.idle, none, none, [], none, 1, 1⟩),
          ("b", ⟨"b", "/p/b", "dev-b", none, "claude",
            OpenOrch.AIActivityStatus.working, some "t", none, [], none, 2, 2⟩),
          ("c", ⟨"c", "/p/c", "dev-c", none, "claude",
            OpenOrch.AIActivityStatus.blocked, none, none, [], none, 3, 3⟩)]⟩,
         none⟩ 9 ["a", "c"]).2 =
      ((([("a", ⟨"a", "/p/a", "dev-a", none, "claude",
            OpenOrch.AIActivityStatus.idle, none, none, [], none, 1, 1⟩),
         ("b", ⟨"b", "/p/b", "dev-b", none, "claude",
            OpenOrch.AIActivityStatus.working, some "t", none, [], none, 2, 2⟩),
         ("c", ⟨"c", "/p/c", "dev-c", none, "claude",
            OpenOrch.AIActivityStatus.blocked, none, none, [], none, 3, 3⟩)] :
          List (String × OpenOrch.WorktreeAIStatus)).map
          Prod.fst).filter (fun n => !(["a", "c"].contains n))) :=
  C7_cleanup_orphans_exact _ 9 ["a", "c"] (by decide) (by decide)

/-- Claim C6: when the identifier resolves to the main worktree, `delete`
fails with the operation-failed error "Cannot delete the main worktree"
for every value of `force`, issuing no removal command. -/
theorem C6_delete_main_refused (env : ClaudeOrch.DeleteEnv)
    (identifier : String) (force : Bool) (wt : ClaudeOrch.WorktreeInfo)
    (hfind : ClaudeOrch.find_worktree env.worktrees identifier = some wt)
    (hmain : wt.is_main = true) :
    ClaudeOrch.delete env identifier force =
      (.error (.operationFailed "Cannot delete the main worktree"), []) := by
  unfold ClaudeOrch.delete
  rw [hfind]
  simp [hmain]

/-- Witness for C6: deleting the main worktree by its branch name with
`force = true` is refused. -/
theorem C6_delete_main_refused_witness :
    ClaudeOrch.delete
        ⟨[⟨"/repos/proj", "main", "abc1234", true, false⟩], true, ""⟩
        "main" true =
      (.error (.operationFailed "Cannot delete the main worktree"), []) :=
  C6_delete_main_refused _ "main" true
    ⟨"/repos/proj", "main", "abc1234", true, false⟩ (by decide) rfl
